import Mathlib

/-!
A verification development for the rlox tree-walking Lox interpreter.

The Rust sources are shallowly embedded: each Lean definition mirrors one
Rust item (file and function named in its doc comment).  Shared mutable
state (`Rc<RefCell<...>>`) is modelled with an explicit store: a cell id is
an index into `Store.cells` and an environment id an index into
`Store.frames`.  Rust panics (`unwrap`, `expect`, arithmetic overflow,
out-of-bounds indexing) are modelled by `Option` results or by the
`.panic` outcome; recursion in the interpreter, resolver, scanner and
parser is driven by an explicit fuel argument (running out of fuel is also
mapped to `.panic`; all concrete runs below use ample fuel).

Numbers: the Rust value type carries `f32`; none of the properties checked
here depends on non-integral or IEEE-special values, so the numeric
payload is modelled as `Int` (printing an integral `f32` with `{}` agrees
with `Int` printing on the values used here).
-/

namespace RLox

/-- `TokenType` from `token.rs` (39 variants).  Constructors that would
collide with Lean keywords carry a `Kw` suffix. -/
inductive TokenType where
  | leftParen | rightParen | leftBrace | rightBrace
  | comma | dot | minus | plus | semicolon | slash | star
  | bang | bangEqual | equal | equalEqual
  | greater | greaterEqual | less | lessEqual
  | identifier | string | number
  | andKw | classKw | elseKw | falseKw | funKw | forKw | ifKw | nilKw
  | orKw | printKw | returnKw | superKw | thisKw | trueKw | varKw | whileKw
  | eof
  deriving DecidableEq

mutual

/-- `Object` from `interpreter.rs`: the runtime value type.  `cls`, `inst`,
`str`, `num`, `fn` stand for the Rust variants `Class`, `Instance`,
`String`, `Number`, `Function`; `nativeFn` models `NativeFunction` (arity
plus a host handler; the handler is irrelevant to the checked claims). -/
inductive Object where
  | cls (c : Class)
  | inst (i : Instance)
  | str (s : String)
  | num (n : Int)
  | bool (b : Bool)
  | nil
  | fn (f : Function)
  | nativeFn (arity : Nat)

/-- `Class` from `class.rs`: name, optional superclass (a cell holding an
`Object`, per `Option<Rc<RefCell<Object>>>`), and the method map. -/
inductive Class where
  | mk (name : String) (superclass : Option Nat) (methods : List (String × Function))

/-- `Instance` from `instance.rs`: its class (held by value — cloning an
instance copies the field map) and a map from field name to value cell. -/
inductive Instance where
  | mk (klass : Class) (fields : List (String × Nat))

/-- `Function` from `function.rs`: initializer flag, declaration
statement, and the captured environment (an environment id). -/
inductive Function where
  | mk (isInitializer : Bool) (declaration : Stmt) (closure : Nat)

/-- `Token` from `token.rs`. -/
inductive Token where
  | mk (tokenType : TokenType) (lexeme : String) (literal : Option Object)
       (line : Nat) (position : Nat)

/-- `Expr` from `ast.rs`.  The Rust `Variable` variant is `var` here
(`variable` is a Lean keyword). -/
inductive Expr where
  | assign (name : Token) (value : Expr)
  | binary (left : Expr) (operator : Token) (right : Expr)
  | call (callee : Expr) (paren : Token) (arguments : List Expr)
  | get (object : Expr) (name : Token)
  | grouping (expression : Expr)
  | literal (value : Object)
  | logical (left : Expr) (operator : Token) (right : Expr)
  | set (object : Expr) (name : Token) (value : Expr)
  | this (keyword : Token)
  | unary (operator : Token) (right : Expr)
  | var (name : Token)

/-- `Stmt` as used by `interpreter.rs` / `parser.rs` / `resolver.rs`
(the drafts disagree on the `Class` payload: the resolver destructures an
optional superclass, the interpreter and parser use only name and
methods; we carry the optional superclass, which the parser always leaves
`none` and the interpreter ignores).  Keyword collisions: `If`/`While`
become `ifStmt`/`whileStmt`, `Return` becomes `ret`, `Expression`/`Expr`
becomes `expr`. -/
inductive Stmt where
  | block (statements : List Stmt)
  | classDecl (name : Token) (superclass : Option Expr) (methods : List Stmt)
  | expr (e : Expr)
  | function (name : Token) (params : List Token) (body : List Stmt)
  | ifStmt (condition : Expr) (thenBranch : Stmt) (elseBranch : Option Stmt)
  | print (e : Expr)
  | ret (keyword : Token) (value : Expr)
  | var (name : Token) (initializer : Option Expr)
  | whileStmt (condition : Expr) (body : Stmt)

end

def Token.tokenType : Token → TokenType
  | .mk t _ _ _ _ => t

def Token.lexeme : Token → String
  | .mk _ l _ _ _ => l

def Token.literal : Token → Option Object
  | .mk _ _ o _ _ => o

def Token.line : Token → Nat
  | .mk _ _ _ n _ => n

def Token.position : Token → Nat
  | .mk _ _ _ _ p => p

def Class.name : Class → String
  | .mk n _ _ => n

def Class.superclass : Class → Option Nat
  | .mk _ s _ => s

def Class.methods : Class → List (String × Function)
  | .mk _ _ m => m

def Instance.klass : Instance → Class
  | .mk k _ => k

def Instance.fields : Instance → List (String × Nat)
  | .mk _ f => f

def Function.isInitializer : Function → Bool
  | .mk b _ _ => b

def Function.declaration : Function → Stmt
  | .mk _ d _ => d

def Function.closure : Function → Nat
  | .mk _ _ c => c

/-! ## The store: cells and environment frames

`Rc<RefCell<Object>>` becomes a cell id into `Store.cells`;
`Rc<RefCell<Environment>>` becomes a frame id into `Store.frames`.
Cloning an `Rc` copies the id (aliasing preserved); cloning an `Object`
or `Instance` copies the Lean value (aliasing broken), exactly as in
Rust. -/

/-- `Environment` from `environment.rs`: optional enclosing frame and a
name-to-cell map (`HashMap<String, Rc<RefCell<Object>>>` — modelled as an
association list whose `insert` replaces an existing key). -/
structure Frame where
  enclosing : Option Nat
  values : List (String × Nat)

structure Store where
  cells : List Object
  frames : List Frame

/-- `HashMap::insert`: replace the binding for `k` or append it. -/
def listInsert (m : List (String × Nat)) (k : String) (v : Nat) : List (String × Nat) :=
  match m with
  | [] => [(k, v)]
  | (k0, v0) :: rest => if k0 = k then (k, v) :: rest else (k0, v0) :: listInsert rest k v

/-- `HashMap::get`. -/
def listGet (m : List (String × Nat)) (k : String) : Option Nat :=
  match m with
  | [] => none
  | (k0, v0) :: rest => if k0 = k then some v0 else listGet rest k

/-- `HashMap::get` for the method map of a class. -/
def methodsGet (m : List (String × Function)) (k : String) : Option Function :=
  match m with
  | [] => none
  | (k0, v0) :: rest => if k0 = k then some v0 else methodsGet rest k

/-- `HashMap::insert` for the method map of a class. -/
def methodsInsert (m : List (String × Function)) (k : String) (v : Function) :
    List (String × Function) :=
  match m with
  | [] => [(k, v)]
  | (k0, v0) :: rest => if k0 = k then (k, v) :: rest else (k0, v0) :: methodsInsert rest k v

def Store.readCell (st : Store) (i : Nat) : Option Object :=
  st.cells.get? i

def Store.writeCell (st : Store) (i : Nat) (o : Object) : Store :=
  { st with cells := st.cells.set i o }

/-- `Rc::new(RefCell::new(o))`: allocate a fresh cell. -/
def Store.newCell (st : Store) (o : Object) : Store × Nat :=
  ({ st with cells := st.cells ++ [o] }, st.cells.length)

def Store.readFrame (st : Store) (i : Nat) : Option Frame :=
  st.frames.get? i

def Store.writeFrame (st : Store) (i : Nat) (f : Frame) : Store :=
  { st with frames := st.frames.set i f }

/-- `Environment::new(enclosing)` wrapped in a fresh `Rc<RefCell<_>>`. -/
def Store.newFrame (st : Store) (enclosing : Option Nat) : Store × Nat :=
  ({ st with frames := st.frames ++ [{ enclosing := enclosing, values := [] }] },
   st.frames.length)

/-- `Environment::define` on the frame `envId`. -/
def Store.frameDefine (st : Store) (envId : Nat) (name : String) (cell : Nat) : Store :=
  match st.readFrame envId with
  | some fr => st.writeFrame envId { fr with values := listInsert fr.values name cell }
  | none => st

/-- `RuntimeError` from `error.rs`: token, message, and the optional value
cell used as the `return` signal. -/
structure RErr where
  token : Token
  message : String
  value : Option Nat

/-- Outcome of evaluating Rust code that can return normally, return
`Err(RuntimeError)`, or panic. -/
inductive PRes (α : Type) where
  | ok (a : α)
  | err (e : RErr)
  | panic

/-- `Environment::get` (`environment.rs` lines 18-33): walk the enclosing
chain; missing at the root is a `RuntimeError`.  `fuel` bounds the chain
walk (the chain is finite in every run below). -/
def envGet (fuel : Nat) (st : Store) (envId : Nat) (name : Token) : PRes Nat :=
  match fuel with
  | 0 => .panic
  | fuel + 1 =>
    match st.readFrame envId with
    | none => .panic
    | some fr =>
      match listGet fr.values name.lexeme with
      | some c => .ok c
      | none =>
        match fr.enclosing with
        | some e => envGet fuel st e name
        | none =>
          .err ⟨name, "Get: Undefined variable \x27" ++ name.lexeme ++ "\x27.", none⟩

/-- `Environment::assign` (`environment.rs` lines 35-52). -/
def envAssign (fuel : Nat) (st : Store) (envId : Nat) (name : Token) (cell : Nat) :
    Store × PRes Unit :=
  match fuel with
  | 0 => (st, .panic)
  | fuel + 1 =>
    match st.readFrame envId with
    | none => (st, .panic)
    | some fr =>
      match listGet fr.values name.lexeme with
      | some _ =>
        (st.writeFrame envId { fr with values := listInsert fr.values name.lexeme cell },
         .ok ())
      | none =>
        match fr.enclosing with
        | some e => envAssign fuel st e name cell
        | none =>
          (st, .err ⟨name, "Assign: Undefined variable \x27" ++ name.lexeme ++ "\x27.", none⟩)

def enclosingOf (st : Store) (envId : Nat) : Option Nat :=
  (st.readFrame envId).bind Frame.enclosing

/-- Follow `hops` further `enclosing` links (each `expect` panics — `none`
— when the link is missing). -/
def ancestorHops (st : Store) (envId : Nat) (hops : Nat) : Option Nat :=
  match hops with
  | 0 => some envId
  | h + 1 => (enclosingOf st envId).bind (fun e => ancestorHops st e h)

/-- `Environment::ancestor` (`environment.rs` lines 58-72).  The Rust code
starts from `self.enclosing.expect(..)` and then loops
`for _ in 0..(distance - 1)`, so `ancestor d` follows exactly `d`
enclosing links for `d ≥ 1`.  For `d = 0` the loop bound `distance - 1`
underflows on `usize`: a debug build panics on the subtraction and a
release build wraps to `usize::MAX` and exhausts the finite enclosing
chain, panicking in `expect` — a panic (`none`) either way. -/
def ancestor (st : Store) (envId : Nat) (distance : Nat) : Option Nat :=
  match distance with
  | 0 => none
  | d + 1 => (enclosingOf st envId).bind (fun e => ancestorHops st e d)

/-- `Environment::get_at` (`environment.rs` lines 74-98): distance 0 reads
the frame itself (`unwrap` — panics when absent); otherwise the name is
looked up in `ancestor distance`, and a miss falls through to `panic!()`. -/
def getAt (st : Store) (envId : Nat) (distance : Nat) (name : String) : PRes Nat :=
  if distance = 0 then
    match st.readFrame envId with
    | none => .panic
    | some fr =>
      match listGet fr.values name with
      | some c => .ok c
      | none => .panic
  else
    match ancestor st envId distance with
    | none => .panic
    | some a =>
      match st.readFrame a with
      | none => .panic
      | some fr =>
        match listGet fr.values name with
        | some c => .ok c
        | none => .panic

/-- `Environment::assign_at` (`environment.rs` lines 100-105): insert into
the values of `ancestor distance`, with no special case for distance 0 —
`none` models the panic inside `ancestor`. -/
def envAssignAt (st : Store) (envId : Nat) (distance : Nat) (name : Token) (cell : Nat) :
    Option Store :=
  (ancestor st envId distance).map fun a =>
    match st.readFrame a with
    | some fr => st.writeFrame a { fr with values := listInsert fr.values name.lexeme cell }
    | none => st

/-! ## Object operations -/

/-- `is_truthy` (`interpreter.rs` lines 548-554). -/
def isTruthy (o : Object) : Bool :=
  match o with
  | .nil => false
  | .bool b => b
  | _ => true

/-- `is_equal` (`interpreter.rs` lines 556-564), applied to the borrowed
contents of the two operand cells: any pair not covered by the four
same-tag primitive arms — functions, classes, instances included, whatever
their identity — falls to `(_, _) => false`. -/
def isEqual (l r : Object) : Bool :=
  match l, r with
  | .num a, .num b => a == b
  | .str a, .str b => a == b
  | .bool a, .bool b => a == b
  | .nil, .nil => true
  | _, _ => false

/-- `impl PartialEq for Object` (`interpreter.rs` lines 95-105): the same
four arms as `is_equal`. -/
def objectEq (l r : Object) : Bool :=
  match l, r with
  | .num a, .num b => a == b
  | .str a, .str b => a == b
  | .bool a, .bool b => a == b
  | .nil, .nil => true
  | _, _ => false

/-- `impl Display for Object` (`interpreter.rs` lines 56-93). -/
def display (o : Object) : String :=
  match o with
  | .bool b => if b then "true" else "false"
  | .cls c => c.name
  | .inst i => i.klass.name ++ " instance"
  | .str s => s
  | .num n => toString n
  | .nil => "nil"
  | .fn f =>
    match f.declaration with
    | .function name _ _ => "Function<" ++ name.lexeme ++ ">"
    | _ => "Anonymous Function"
  | .nativeFn _ => "Native Function"

/-- The binary-operator dispatch of `visit_expr` for `Expr::Binary`
(`interpreter.rs` lines 211-306), applied to the borrowed operand
objects. -/
def applyBinary (operator : Token) (l r : Object) : PRes Object :=
  match operator.tokenType with
  | .bangEqual => .ok (.bool (!(isEqual l r)))
  | .equalEqual => .ok (.bool (isEqual l r))
  | .greater =>
    match l, r with
    | .num a, .num b => .ok (.bool (b < a))
    | _, _ => .err ⟨operator, "Operands must be numbers.", none⟩
  | .greaterEqual =>
    match l, r with
    | .num a, .num b => .ok (.bool (b ≤ a))
    | _, _ => .err ⟨operator, "Operands must be numbers.", none⟩
  | .less =>
    match l, r with
    | .num a, .num b => .ok (.bool (a < b))
    | _, _ => .err ⟨operator, "Operands must be numbers.", none⟩
  | .lessEqual =>
    match l, r with
    | .num a, .num b => .ok (.bool (a ≤ b))
    | _, _ => .err ⟨operator, "Operands must be numbers.", none⟩
  | .minus =>
    match l, r with
    | .num a, .num b => .ok (.num (a - b))
    | _, _ => .err ⟨operator, "Operands must be numbers.", none⟩
  | .plus =>
    match l, r with
    | .num a, .num b => .ok (.num (a + b))
    | .str a, .str b => .ok (.str (a ++ b))
    | _, _ => .err ⟨operator, "Operands must be two numbers or two strings.", none⟩
  | .slash =>
    match l, r with
    | .num a, .num b => .ok (.num (a / b))
    | _, _ => .err ⟨operator, "Operands must be numbers.", none⟩
  | .star =>
    match l, r with
    | .num a, .num b => .ok (.num (a * b))
    | _, _ => .err ⟨operator, "Operands must be numbers.", none⟩
  | _ => .err ⟨operator, "Invalid use of operator.", none⟩

/-! ## Classes, instances, functions -/

/-- `Class::find_method` (`class.rs` lines 32-44): own methods first, then
the superclass chain (only when the superclass cell actually holds a
class).  `fuel` bounds the chain. -/
def findMethod (fuel : Nat) (st : Store) (c : Class) (name : String) : Option Function :=
  match fuel with
  | 0 => none
  | fuel + 1 =>
    match methodsGet c.methods name with
    | some m => some m
    | none =>
      match c.superclass with
      | some sc =>
        match st.readCell sc with
        | some (.cls c2) => findMethod fuel st c2 name
        | _ => none
      | none => none

/-- `Function::new` (`function.rs` lines 26-39): panics (`none`) unless the
declaration is a `Stmt::Function`. -/
def funcNew (declaration : Stmt) (environment : Nat) (isInitializer : Bool) :
    Option Function :=
  match declaration with
  | .function _ _ _ => some (Function.mk isInitializer declaration environment)
  | _ => none

/-- `Function::arity` (`function.rs` lines 101-111). -/
def Function.arity (f : Function) : Nat :=
  match f.declaration with
  | .function _ params _ => params.length
  | _ => 0

/-- `Function::bind` (`function.rs` lines 41-50): a fresh environment over
the closure with `"this"` defined to a fresh cell holding the instance. -/
def Function.bind (st : Store) (f : Function) (i : Instance) : Store × Option Function :=
  let (st1, envId) := st.newFrame (some f.closure)
  let (st2, cell) := st1.newCell (.inst i)
  let st3 := st2.frameDefine envId "this" cell
  (st3, funcNew f.declaration envId f.isInitializer)

/-- `Class::arity` (`class.rs` lines 65-70): the arity of `init` when
present, else 0. -/
def classArity (fuel : Nat) (st : Store) (c : Class) : Nat :=
  match findMethod fuel st c "init" with
  | some init => init.arity
  | none => 0

/-- `Instance::get` (`instance.rs` lines 18-31): a field when present,
else the method found on the class — wrapped in a fresh cell exactly as
found, with no `bind` — else "Undefined property". -/
def instanceGet (fuel : Nat) (st : Store) (i : Instance) (name : Token) :
    Store × PRes Nat :=
  match listGet i.fields name.lexeme with
  | some c => (st, .ok c)
  | none =>
    match findMethod fuel st i.klass name.lexeme with
    | some m =>
      let (st1, cell) := st.newCell (.fn m)
      (st1, .ok cell)
    | none =>
      (st, .err ⟨name, "Undefined property \x27" ++ name.lexeme ++ "\x27.", none⟩)

/-- `Instance::set` (`instance.rs` lines 33-35). -/
def Instance.set (i : Instance) (name : Token) (cell : Nat) : Instance :=
  .mk i.klass (listInsert i.fields name.lexeme cell)

/-! ## The interpreter -/

/-- `Interpreter` (`interpreter.rs` lines 109-114): globals, current
environment and the output writer (a list of written strings).  The depth
map `locals` is passed separately as a function (`HashMap::get` on
expression identity). -/
structure Interp where
  store : Store
  globals : Nat
  environment : Nat
  output : List String

/-- The interpreter's `locals` depth map (`HashMap<Expr, usize>`),
as the lookup function it is queried through. -/
def Locals := Expr → Option Nat

/-- `Interpreter::look_up_variable` (`interpreter.rs` lines 165-176). -/
def lookUpVariable (fuel : Nat) (L : Locals) (I : Interp) (name : Token) (e : Expr) :
    PRes Nat :=
  match L e with
  | some d => getAt I.store I.environment d name.lexeme
  | none => envGet fuel I.store I.globals name

/-- The method-map construction in `visit_stmt` for `Stmt::Class`
(`interpreter.rs` lines 508-519).  That draft calls `Function::new`
with two arguments; per `function.rs` (and the spec's `init` semantics)
the initializer flag is set exactly for methods named `init`.  A
non-function method statement makes `Function::new` panic (`none`). -/
def buildMethods (env : Nat) (ms : List Stmt) (acc : List (String × Function)) :
    Option (List (String × Function)) :=
  match ms with
  | [] => some acc
  | m :: rest =>
    match m with
    | .function mname _ _ =>
      match funcNew m env (mname.lexeme == "init") with
      | some f => buildMethods env rest (methodsInsert acc mname.lexeme f)
      | none => none
    | _ => none

/-- The parameter-binding loop of `Function::call` (`function.rs` lines
71-79): each parameter takes the next argument
(`arguments_iter.next().expect(..)` panics when exhausted); surplus
arguments are ignored. -/
def bindParams (st : Store) (envId : Nat) (params : List Token) (args : List Nat) :
    Option Store :=
  match params, args with
  | [], _ => some st
  | _ :: _, [] => none
  | p :: ps, a :: rest => bindParams (st.frameDefine envId p.lexeme a) envId ps rest

mutual

/-- `visit_expr` (`interpreter.rs` lines 180-440). -/
def evalExpr (fuel : Nat) (L : Locals) (I : Interp) (e : Expr) : Interp × PRes Nat :=
  match fuel with
  | 0 => (I, .panic)
  | f + 1 =>
    match e with
    | .assign name value =>
      match evalExpr f L I value with
      | (I1, .ok objectCell) =>
        match L (.assign name value) with
        | some d =>
          match envAssignAt I1.store I1.environment d name objectCell with
          | some st1 => ({ I1 with store := st1 }, .ok objectCell)
          | none => (I1, .panic)
        | none =>
          match envAssign f I1.store I1.globals name objectCell with
          | (st1, .ok _) => ({ I1 with store := st1 }, .ok objectCell)
          | (st1, .err er) => ({ I1 with store := st1 }, .err er)
          | (st1, .panic) => ({ I1 with store := st1 }, .panic)
      | (I1, .err er) => (I1, .err er)
      | (I1, .panic) => (I1, .panic)
    | .binary left operator right =>
      match evalExpr f L I left with
      | (I1, .ok lcell) =>
        match evalExpr f L I1 right with
        | (I2, .ok rcell) =>
          match I2.store.readCell lcell, I2.store.readCell rcell with
          | some lo, some ro =>
            match applyBinary operator lo ro with
            | .ok o =>
              let (st1, c) := I2.store.newCell o
              ({ I2 with store := st1 }, .ok c)
            | .err er => (I2, .err er)
            | .panic => (I2, .panic)
          | _, _ => (I2, .panic)
        | (I2, .err er) => (I2, .err er)
        | (I2, .panic) => (I2, .panic)
      | (I1, .err er) => (I1, .err er)
      | (I1, .panic) => (I1, .panic)
    | .call callee paren arguments =>
      match evalExpr f L I callee with
      | (I1, .ok calleeCell) =>
        match evalArgs f L I1 arguments with
        | (I2, .ok argCells) =>
          match I2.store.readCell calleeCell with
          | some (.fn func) =>
            if argCells.length ≠ func.arity then
              (I2, .err ⟨paren,
                "Expected " ++ toString func.arity ++ " arguments but got "
                  ++ toString argCells.length ++ ".", none⟩)
            else funcCall f L I2 func argCells
          | some (.nativeFn arity) =>
            if argCells.length ≠ arity then
              (I2, .err ⟨paren,
                "Expected " ++ toString arity ++ " arguments but got "
                  ++ toString argCells.length ++ ".", none⟩)
            else
              -- `NativeFunction::call`: the host handler runs; the sole
              -- native (`clock`) prints to stdout, so the produced object
              -- is modelled as nil in a fresh cell.
              let (st1, c) := I2.store.newCell .nil
              ({ I2 with store := st1 }, .ok c)
          | some (.cls klass) =>
            if argCells.length ≠ classArity f I2.store klass then
              (I2, .err ⟨paren,
                "Expected " ++ toString (classArity f I2.store klass)
                  ++ " arguments but got " ++ toString argCells.length ++ ".", none⟩)
            else classCall f L I2 klass argCells
          | some _ => (I2, .err ⟨paren, "Can only call functions and classes", none⟩)
          | none => (I2, .panic)
        | (I2, .err er) => (I2, .err er)
        | (I2, .panic) => (I2, .panic)
      | (I1, .err er) => (I1, .err er)
      | (I1, .panic) => (I1, .panic)
    | .get object name =>
      match evalExpr f L I object with
      | (I1, .ok ocell) =>
        match I1.store.readCell ocell with
        | some (.inst i) =>
          let (st1, r) := instanceGet f I1.store i name
          ({ I1 with store := st1 }, r)
        | some _ => (I1, .err ⟨name, "Only instances have properties.", none⟩)
        | none => (I1, .panic)
      | (I1, .err er) => (I1, .err er)
      | (I1, .panic) => (I1, .panic)
    | .grouping expression => evalExpr f L I expression
    | .literal value =>
      let (st1, c) := I.store.newCell value
      ({ I with store := st1 }, .ok c)
    | .logical left operator right =>
      match evalExpr f L I left with
      | (I1, .ok lcell) =>
        match I1.store.readCell lcell with
        | none => (I1, .panic)
        | some lo =>
          if operator.tokenType = .orKw then
            if isTruthy lo then (I1, .ok lcell) else evalExpr f L I1 right
          else
            if !(isTruthy lo) then (I1, .ok lcell) else evalExpr f L I1 right
      | (I1, .err er) => (I1, .err er)
      | (I1, .panic) => (I1, .panic)
    | .set object name value =>
      match evalExpr f L I object with
      | (I1, .ok ocell) =>
        match I1.store.readCell ocell with
        | some (.inst i) =>
          -- the value is evaluated while the instance is borrowed; none of
          -- the runs below touches the borrowed cell during that evaluation
          match evalExpr f L I1 value with
          | (I2, .ok vcell) =>
            ({ I2 with store := I2.store.writeCell ocell (.inst (i.set name vcell)) },
             .ok vcell)
          | (I2, .err er) => (I2, .err er)
          | (I2, .panic) => (I2, .panic)
        | some _ => (I1, .err ⟨name, "Only instances have fields.", none⟩)
        | none => (I1, .panic)
      | (I1, .err er) => (I1, .err er)
      | (I1, .panic) => (I1, .panic)
    | .this keyword => (I, lookUpVariable f L I keyword (.this keyword))
    | .unary operator right =>
      match evalExpr f L I right with
      | (I1, .ok cell) =>
        match I1.store.readCell cell with
        | none => (I1, .panic)
        | some obj =>
          match operator.tokenType with
          | .bang =>
            -- the draft returns `is_truthy`, not its negation (line 424)
            let (st1, c) := I1.store.newCell (.bool (isTruthy obj))
            ({ I1 with store := st1 }, .ok c)
          | .minus =>
            match obj with
            | .num n =>
              let (st1, c) := I1.store.newCell (.num (-n))
              ({ I1 with store := st1 }, .ok c)
            | _ => (I1, .err ⟨operator, "Operand must be a number", none⟩)
          | _ =>
            let (st1, c) := I1.store.newCell .nil
            ({ I1 with store := st1 }, .ok c)
      | (I1, .err er) => (I1, .err er)
      | (I1, .panic) => (I1, .panic)
    | .var name => (I, lookUpVariable f L I name (.var name))

/-- The argument loop of `visit_expr` for `Expr::Call`
(`interpreter.rs` lines 315-318): left to right, stopping at the first
error. -/
def evalArgs (fuel : Nat) (L : Locals) (I : Interp) (args : List Expr) :
    Interp × PRes (List Nat) :=
  match fuel with
  | 0 => (I, .panic)
  | f + 1 =>
    match args with
    | [] => (I, .ok [])
    | a :: rest =>
      match evalExpr f L I a with
      | (I1, .ok c) =>
        match evalArgs f L I1 rest with
        | (I2, .ok cs) => (I2, .ok (c :: cs))
        | (I2, .err er) => (I2, .err er)
        | (I2, .panic) => (I2, .panic)
      | (I1, .err er) => (I1, .err er)
      | (I1, .panic) => (I1, .panic)

/-- `visit_stmt` (`interpreter.rs` lines 441-545). -/
def evalStmt (fuel : Nat) (L : Locals) (I : Interp) (s : Stmt) : Interp × PRes Unit :=
  match fuel with
  | 0 => (I, .panic)
  | f + 1 =>
    match s with
    | .expr e =>
      match evalExpr f L I e with
      | (I1, .ok _) => (I1, .ok ())
      | (I1, .err er) => (I1, .err er)
      | (I1, .panic) => (I1, .panic)
    | .ifStmt condition thenBranch elseBranch =>
      match evalExpr f L I condition with
      | (I1, .ok c) =>
        match I1.store.readCell c with
        | none => (I1, .panic)
        | some obj =>
          if isTruthy obj then evalStmt f L I1 thenBranch
          else
            match elseBranch with
            | some sb => evalStmt f L I1 sb
            | none => (I1, .ok ())
      | (I1, .err er) => (I1, .err er)
      | (I1, .panic) => (I1, .panic)
    | .print e =>
      match evalExpr f L I e with
      | (I1, .ok c) =>
        match I1.store.readCell c with
        | none => (I1, .panic)
        | some obj => ({ I1 with output := I1.output ++ [display obj ++ "\n"] }, .ok ())
      | (I1, .err er) => (I1, .err er)
      | (I1, .panic) => (I1, .panic)
    | .ret keyword value =>
      match evalExpr f L I value with
      | (I1, .ok o) => (I1, .err ⟨keyword, "", some o⟩)
      | (I1, .err er) => (I1, .err er)
      | (I1, .panic) => (I1, .panic)
    | .var name initializer =>
      match initializer with
      | some ini =>
        match evalExpr f L I ini with
        | (I1, .ok c) =>
          ({ I1 with store := I1.store.frameDefine I1.environment name.lexeme c }, .ok ())
        | (I1, .err er) => (I1, .err er)
        | (I1, .panic) => (I1, .panic)
      | none =>
        let (st1, c) := I.store.newCell .nil
        ({ I with store := st1.frameDefine I.environment name.lexeme c }, .ok ())
    | .block statements =>
      let (st1, envId) := I.store.newFrame (some I.environment)
      interpretBlock f L { I with store := st1 } statements envId
    | .classDecl name _sc stmtMethods =>
      let (stA, nilCell) := I.store.newCell .nil
      let stB := stA.frameDefine I.environment name.lexeme nilCell
      match buildMethods I.environment stmtMethods [] with
      | none => ({ I with store := stB }, .panic)
      | some methods =>
        -- the draft calls `Class::new(name, methods)`; per `class.rs`
        -- the superclass slot of the built class is empty
        let (stC, klassCell) := stB.newCell (.cls (Class.mk name.lexeme none methods))
        match envAssign f stC I.environment name klassCell with
        | (stD, .ok _) => ({ I with store := stD }, .ok ())
        | (stD, .err er) => ({ I with store := stD }, .err er)
        | (stD, .panic) => ({ I with store := stD }, .panic)
    | .whileStmt condition body =>
      match evalExpr f L I condition with
      | (I1, .ok c) =>
        match I1.store.readCell c with
        | none => (I1, .panic)
        | some obj =>
          if isTruthy obj then
            match evalStmt f L I1 body with
            | (I2, .ok _) => evalStmt f L I2 (.whileStmt condition body)
            | (I2, .err er) => (I2, .err er)
            | (I2, .panic) => (I2, .panic)
          else (I1, .ok ())
      | (I1, .err er) => (I1, .err er)
      | (I1, .panic) => (I1, .panic)
    | .function name params body =>
      match funcNew (.function name params body) I.environment false with
      | some fnc =>
        let (st1, c) := I.store.newCell (.fn fnc)
        ({ I with store := st1.frameDefine I.environment name.lexeme c }, .ok ())
      | none => (I, .panic)

/-- The statement loop of `interpret_block` (`interpreter.rs` lines
152-158): run in order, stopping at the first error. -/
def execStmts (fuel : Nat) (L : Locals) (I : Interp) (stmts : List Stmt) :
    Interp × PRes Unit :=
  match fuel with
  | 0 => (I, .panic)
  | f + 1 =>
    match stmts with
    | [] => (I, .ok ())
    | s :: rest =>
      match evalStmt f L I s with
      | (I1, .ok _) => execStmts f L I1 rest
      | (I1, .err er) => (I1, .err er)
      | (I1, .panic) => (I1, .panic)

/-- `Interpreter::interpret_block` (`interpreter.rs` lines 145-161):
switch to `environment`, run the statements, and restore the previous
environment on both normal and error exit (a panic unwinds). -/
def interpretBlock (fuel : Nat) (L : Locals) (I : Interp) (stmts : List Stmt)
    (environment : Nat) : Interp × PRes Unit :=
  match fuel with
  | 0 => (I, .panic)
  | f + 1 =>
    let previous := I.environment
    match execStmts f L { I with environment := environment } stmts with
    | (I1, .ok _) => ({ I1 with environment := previous }, .ok ())
    | (I1, .err er) => ({ I1 with environment := previous }, .err er)
    | (I1, .panic) => (I1, .panic)

/-- `Function::call` (`function.rs` lines 53-99): fresh environment over
the closure, parameters bound left to right (`expect` panics when an
argument is missing), body run through `interpret_block`; an error
carrying a value is the `return` signal; an initializer returns `this`
from depth 0 of its closure; normal fall-through yields nil. -/
def funcCall (fuel : Nat) (L : Locals) (I : Interp) (func : Function)
    (args : List Nat) : Interp × PRes Nat :=
  match fuel with
  | 0 => (I, .panic)
  | f + 1 =>
    let (st1, envId) := I.store.newFrame (some func.closure)
    match func.declaration with
    | .function _ params body =>
      match bindParams st1 envId params args with
      | none => ({ I with store := st1 }, .panic)
      | some st2 =>
        match interpretBlock f L { I with store := st2 } body envId with
        | (I2, .err er) =>
          match er.value with
          | some v =>
            if func.isInitializer then (I2, getAt I2.store func.closure 0 "this")
            else (I2, .ok v)
          | none => (I2, .err er)
        | (I2, .ok _) =>
          if func.isInitializer then (I2, getAt I2.store func.closure 0 "this")
          else
            let (st3, c) := I2.store.newCell .nil
            ({ I2 with store := st3 }, .ok c)
        | (I2, .panic) => (I2, .panic)
    | _ =>
      -- the `if let Stmt::Function` does not match: fall through to Ok(nil)
      let (st3, c) := st1.newCell .nil
      ({ I with store := st3 }, .ok c)

/-- `Class::call` (`class.rs` lines 47-63): construct an instance; when an
`init` method exists, bind it to a clone of the instance and invoke it,
discarding its result; finally return a fresh cell holding the (original,
never-mutated) instance. -/
def classCall (fuel : Nat) (L : Locals) (I : Interp) (klass : Class)
    (args : List Nat) : Interp × PRes Nat :=
  match fuel with
  | 0 => (I, .panic)
  | f + 1 =>
    let inst0 := Instance.mk klass []
    match findMethod f I.store klass "init" with
    | some initf =>
      match initf.bind I.store inst0 with
      | (st1, some bf) =>
        match funcCall f L { I with store := st1 } bf args with
        | (I1, .ok _) =>
          let (st2, c) := I1.store.newCell (.inst inst0)
          ({ I1 with store := st2 }, .ok c)
        | (I1, .err er) => (I1, .err er)
        | (I1, .panic) => (I1, .panic)
      | (st1, none) => ({ I with store := st1 }, .panic)
    | none =>
      let (st2, c) := I.store.newCell (.inst inst0)
      ({ I with store := st2 }, .ok c)

end

/-- `Interpreter::interpret` (`interpreter.rs` lines 140-144): visit each
top-level statement in order, discarding each statement's result
(`let _ = self.visit_stmt(stmt);`) and continuing with the next. -/
def interpret (fuel : Nat) (L : Locals) (I : Interp) (stmts : List Stmt) : Interp :=
  match stmts with
  | [] => I
  | s :: rest => interpret fuel L (evalStmt fuel L I s).1 rest

/-! ## Concrete data for claim C1: `Cake("rich")` -/

/-- Identifier token helper (line 1, distinguishing position). -/
def tokIdent (s : String) (pos : Nat) : Token := .mk .identifier s none 1 pos

/-- The `this` keyword token inside `init`. -/
def c1This : Token := .mk .thisKw "this" none 1 10

/-- The read of parameter `a` inside `init`. -/
def c1AUse : Token := tokIdent "a" 11

def c1Adj : Token := tokIdent "adj" 12

def c1AParam : Token := tokIdent "a" 13

/-- `init(a) { this.adj = a; }` as declared in
`class Cake { init(a){ this.adj = a; } taste(){ print this.adj + " cake"; } }`. -/
def c1InitDecl : Stmt :=
  .function (tokIdent "init" 14) [c1AParam]
    [.expr (.set (.this c1This) c1Adj (.var c1AUse))]

/-- The `this` keyword token inside `taste`. -/
def c1ThisTaste : Token := .mk .thisKw "this" none 1 20

def c1AdjTaste : Token := tokIdent "adj" 21

/-- `taste() { print this.adj + " cake"; }`. -/
def c1TasteDecl : Stmt :=
  .function (tokIdent "taste" 15) []
    [.print (.binary (.get (.this c1ThisTaste) c1AdjTaste)
      (.mk .plus "+" none 1 22) (.literal (.str " cake")))]

/-- The `Cake` class value as the interpreter builds it: both methods
close over the declaration environment (frame 0), `init` carrying the
initializer flag. -/
def c1Cake : Class :=
  .mk "Cake" none
    [("init", Function.mk true c1InitDecl 0), ("taste", Function.mk false c1TasteDecl 0)]

/-- The resolver's depth map for the `Cake` program: `this` inside a
method body sits one frame above the parameter frame, parameter `a` in
the current frame. -/
def c1Locals : Locals := fun e =>
  match e with
  | .this k => if k.position = 10 then some 1 else none
  | .var n => if n.position = 11 then some 0 else none
  | _ => none

/-- Starting state: the class-declaration environment (frame 0) and the
already-evaluated argument `"rich"` in cell 0. -/
def c1Interp : Interp :=
  { store := { cells := [.str "rich"], frames := [{ enclosing := none, values := [] }] },
    globals := 0, environment := 0, output := [] }

/-- `Cake("rich")`: `Class::call` on `c1Cake` with the argument cell. -/
def c1Run : Interp × PRes Nat := classCall 20 c1Locals c1Interp c1Cake [0]

/-- C1: refuted on the code.  `Class::call` binds `init` to a clone of the
new instance: `init` runs and stores `adj` into the clone held by the
`this` cell (cell 1), but the call returns a fresh cell (cell 2) holding
the original, never-mutated instance, whose field map is empty — so the
field assigned to `this` during `init` is *not* readable on the object
the call returns: reading `adj` on it is the runtime error
"Undefined property 'adj'.", and `Cake("rich").taste()` cannot print
`rich cake`. -/
theorem c1_init_fields_lost :
    (c1Run).2 = .ok 2 ∧
    (c1Run).1.store.readCell 2 = some (.inst (Instance.mk c1Cake [])) ∧
    (c1Run).1.store.readCell 1 = some (.inst (Instance.mk c1Cake [("adj", 0)])) ∧
    (instanceGet 5 (c1Run).1.store (Instance.mk c1Cake []) c1Adj).2 =
      .err ⟨c1Adj, "Undefined property \x27adj\x27.", none⟩ :=
  ⟨rfl, rfl, rfl, rfl⟩

/-! ## Concrete data for claim C2: `Egg().scramble` -/

/-- The `this` keyword token inside `scramble`. -/
def c2This : Token := .mk .thisKw "this" none 1 30

/-- `scramble() { print this; }`. -/
def c2ScrambleDecl : Stmt := .function (tokIdent "scramble" 31) [] [.print (.this c2This)]

/-- The `scramble` method as stored on the class: closed over the
class-declaration environment (frame 0). -/
def c2Fn : Function := .mk false c2ScrambleDecl 0

def c2Egg : Class := .mk "Egg" none [("scramble", c2Fn)]

/-- Depth map: `this` inside a method body resolves one frame above the
call frame. -/
def c2Locals : Locals := fun e =>
  match e with
  | .this k => if k.position = 30 then some 1 else none
  | _ => none

def c2Store : Store := { cells := [], frames := [{ enclosing := none, values := [] }] }

def c2Interp : Interp := { store := c2Store, globals := 0, environment := 0, output := [] }

/-- Evaluating the `Get` of `scramble` on a fresh `Egg` instance with no
fields: `Instance::get`. -/
def c2Get : Store × PRes Nat :=
  instanceGet 10 c2Store (Instance.mk c2Egg []) (tokIdent "scramble" 32)

/-- C2: refuted on the code.  `Instance::get` returns the method exactly
as stored on the class — closure still the class-declaration environment,
no fresh frame, no `this` defined — not `bind`ed to the instance; invoking
the fetched method panics when its body reads `this` (the resolved lookup
finds no `this` in the closure), whereas `Function::bind` (which `get`
never calls) would have produced a fresh closure frame with `this`
pre-defined. -/
theorem c2_method_not_bound :
    (c2Get).2 = .ok 0 ∧
    (c2Get).1.readCell 0 = some (.fn (Function.mk false c2ScrambleDecl 0)) ∧
    (funcCall 20 c2Locals { c2Interp with store := (c2Get).1 } c2Fn []).2 = .panic ∧
    (c2Fn.bind c2Store (Instance.mk c2Egg [])).2 =
      some (Function.mk false c2ScrambleDecl 1) ∧
    ((c2Fn.bind c2Store (Instance.mk c2Egg [])).1.readFrame 1).map Frame.values =
      some [("this", 0)] :=
  ⟨rfl, rfl, rfl, rfl, rfl⟩

/-! ## Concrete data for claim C4: `nil + nil; print "after";` -/

def c4Plus : Token := .mk .plus "+" none 1 40

/-- First top-level statement: `nil + nil;` — a runtime type error. -/
def c4Stmt1 : Stmt := .expr (.binary (.literal .nil) c4Plus (.literal .nil))

/-- Second top-level statement: `print "after";`. -/
def c4Stmt2 : Stmt := .print (.literal (.str "after"))

def c4Locals : Locals := fun _ => none

def c4Interp : Interp :=
  { store := { cells := [], frames := [{ enclosing := none, values := [] }] },
    globals := 0, environment := 0, output := [] }

/-- C4 counterexample: the first top-level statement produces a runtime
error, yet the statement after it is still evaluated and its side effect
(printing `after`) occurs — the run does not abort at the failing
statement. -/
theorem c4_counterexample :
    (evalStmt 20 c4Locals c4Interp c4Stmt1).2 =
      .err ⟨c4Plus, "Operands must be two numbers or two strings.", none⟩ ∧
    (interpret 20 c4Locals c4Interp [c4Stmt1, c4Stmt2]).output = ["after\n"] :=
  ⟨rfl, rfl⟩

/-- C4 amended: `Interpreter::interpret` discards each statement's
outcome — after any statement, erroring or not, it continues with the
remaining top-level statements from the state that statement left
behind; on the concrete program above the erroring first statement does
not prevent the second from printing. -/
theorem c4_error_discarded :
    (∀ (fuel : Nat) (L : Locals) (I : Interp) (s : Stmt) (rest : List Stmt),
      interpret fuel L I (s :: rest) = interpret fuel L (evalStmt fuel L I s).1 rest) ∧
    (interpret 20 c4Locals c4Interp [c4Stmt1, c4Stmt2]).output = ["after\n"] :=
  ⟨fun _ _ _ _ _ => rfl, rfl⟩

/-! ## Concrete data for claim C5: `{ var a = 1; a = 2; }` -/

/-- The `a` of the declaration `var a = 1;`. -/
def c5ATok : Token := tokIdent "a" 50

/-- The `a` of the assignment `a = 2;`. -/
def c5AAssign : Token := tokIdent "a" 51

/-- `{ var a = 1; a = 2; }`. -/
def c5Prog : Stmt :=
  .block [.var c5ATok (some (.literal (.num 1))),
          .expr (.assign c5AAssign (.literal (.num 2)))]

/-- Depth map: the assignment target is declared in the same block scope,
so the resolver records depth 0 for it. -/
def c5Locals : Locals := fun e =>
  match e with
  | .assign n _ => if n.position = 51 then some 0 else none
  | _ => none

def c5Interp : Interp :=
  { store := { cells := [], frames := [{ enclosing := none, values := [] }] },
    globals := 0, environment := 0, output := [] }

/-- A two-frame chain (globals below, block frame with `a` on top) for
the direct `assign_at` facts. -/
def c5St : Store :=
  { cells := [.num 1, .num 2],
    frames := [{ enclosing := none, values := [] },
               { enclosing := some 0, values := [("a", 0)] }] }

/-- C5: refuted on the code at depth 0.  `assign_at` has no distance-0
case: it always calls `ancestor`, whose loop bound `distance - 1`
underflows for distance 0 (panic in a debug build; in release the wrapped
bound walks the chain past the root into the `expect` panic) — so an
assignment resolved at depth 0, such as `a = 2` inside
`{ var a = 1; a = 2; }`, panics instead of storing into the current
frame, while for d ≥ 1 the value is stored exactly d frames up and reads
(`get_at`) do handle depth 0. -/
theorem c5_assign_at_depth_zero_panics :
    (evalStmt 20 c5Locals c5Interp c5Prog).2 = .panic ∧
    envAssignAt c5St 1 0 c5AAssign 1 = none ∧
    envAssignAt c5St 1 1 c5AAssign 1 =
      some { cells := [.num 1, .num 2],
             frames := [{ enclosing := none, values := [("a", 1)] },
                        { enclosing := some 0, values := [("a", 0)] }] } ∧
    getAt c5St 1 0 "a" = .ok 0 :=
  ⟨rfl, rfl, rfl, rfl⟩

/-! ## Concrete data for claim C8: `f == f` -/

/-- `fun f() {}` as a function value. -/
def c8F : Function := .mk false (.function (tokIdent "f" 60) [] []) 0

def c8EqEq : Token := .mk .equalEqual "==" none 1 61

def c8BangEq : Token := .mk .bangEqual "!=" none 1 62

def c8Locals : Locals := fun _ => none

/-- Globals hold `f` in cell 0: both sides of `f == f` evaluate to the
very same cell — identity equality in the strongest sense. -/
def c8Interp : Interp :=
  { store := { cells := [.fn c8F],
               frames := [{ enclosing := none, values := [("f", 0)] }] },
    globals := 0, environment := 0, output := [] }

def c8Run : Interp × PRes Nat :=
  evalExpr 20 c8Locals c8Interp
    (.binary (.var (tokIdent "f" 63)) c8EqEq (.var (tokIdent "f" 64)))

/-- C8 counterexample: `is_equal` has no identity arm — `f == f`, with
both operands the very same function cell, evaluates to `false`, so a
function value does **not** compare equal to itself. -/
theorem c8_counterexample :
    isEqual (.fn c8F) (.fn c8F) = false ∧
    (c8Run).2 = .ok 1 ∧
    (c8Run).1.store.readCell 1 = some (.bool false) :=
  ⟨rfl, rfl, rfl⟩

/-- The amended equality relation, written from the amended claim's
words: different tags compare unequal, nil equals nil, numbers, strings
and booleans compare by content, and function, class and instance values
always compare unequal — even to themselves. -/
def specEqualAmended (l r : Object) : Bool :=
  match l, r with
  | .nil, .nil => true
  | .num a, .num b => a == b
  | .str a, .str b => a == b
  | .bool a, .bool b => a == b
  | .fn _, _ | .cls _, _ | .inst _, _ => false
  | _, _ => false

/-- C8 amended: the `==`/`!=` arms of the binary evaluator never produce
a runtime error — they always yield a boolean — and the equality they
compute is `specEqualAmended`: content equality for same-tag primitives,
nil equals nil, and *always false* for functions, classes and instances
(identity plays no part). -/
theorem c8_equality_total :
    (∀ l r : Object, applyBinary c8EqEq l r = .ok (.bool (isEqual l r))) ∧
    (∀ l r : Object, applyBinary c8BangEq l r = .ok (.bool (!(isEqual l r)))) ∧
    (∀ l r : Object, isEqual l r = specEqualAmended l r) :=
  ⟨fun _ _ => rfl, fun _ _ => rfl,
   fun l r => by cases l <;> cases r <;> rfl⟩

/-! ## Claim C10: callee and arguments are evaluated before the
callability and arity checks -/

/-- The callable tags of the `Expr::Call` dispatch: function, native
function, class. -/
def isCallableObj (o : Object) : Bool :=
  match o with
  | .fn _ => true
  | .nativeFn _ => true
  | .cls _ => true
  | _ => false

/-- C10: for every call expression, the evaluator first evaluates the
callee, then every argument left to right (through `evalArgs`, carrying
all side effects in the state `I2`), and only then inspects the callee:
a non-callable callee raises "Can only call functions and classes" and a
function callee with the wrong argument count raises "Expected N
arguments but got M." — in both cases from the post-argument state `I2`,
whose side effects are kept, not rolled back. -/
theorem c10_args_before_checks :
    (∀ (f : Nat) (L : Locals) (I I1 I2 : Interp) (c : Expr) (p : Token)
      (args : List Expr) (cc : Nat) (vs : List Nat) (o : Object),
      evalExpr f L I c = (I1, .ok cc) →
      evalArgs f L I1 args = (I2, .ok vs) →
      I2.store.readCell cc = some o →
      isCallableObj o = false →
      evalExpr (f + 1) L I (.call c p args) =
        (I2, .err ⟨p, "Can only call functions and classes", none⟩)) ∧
    (∀ (f : Nat) (L : Locals) (I I1 I2 : Interp) (c : Expr) (p : Token)
      (args : List Expr) (cc : Nat) (vs : List Nat) (func : Function),
      evalExpr f L I c = (I1, .ok cc) →
      evalArgs f L I1 args = (I2, .ok vs) →
      I2.store.readCell cc = some (.fn func) →
      vs.length ≠ func.arity →
      evalExpr (f + 1) L I (.call c p args) =
        (I2, .err ⟨p, "Expected " ++ toString func.arity ++ " arguments but got "
          ++ toString vs.length ++ ".", none⟩)) := by
  constructor
  · intro f L I I1 I2 c p args cc vs o h1 h2 h3 h4
    cases o <;> simp [isCallableObj] at h4 <;> simp [evalExpr, h1, h2, h3]
  · intro f L I I1 I2 c p args cc vs func h1 h2 h3 h4
    simp [evalExpr, h1, h2, h3, h4]

/-- Concrete data for the C10 witness: globals hold `x` (cell 0, value 0);
the call `nil(x = 1)` evaluates its argument — reassigning `x` to a fresh
cell holding 1 — before failing on the non-callable callee. -/
def c10X : Token := tokIdent "x" 70

def c10Paren : Token := .mk .rightParen ")" none 1 71

def c10Callee : Expr := .literal .nil

def c10Args : List Expr := [.assign c10X (.literal (.num 1))]

def c10Locals : Locals := fun _ => none

def c10Interp : Interp :=
  { store := { cells := [.num 0],
               frames := [{ enclosing := none, values := [("x", 0)] }] },
    globals := 0, environment := 0, output := [] }

/-- C10 witness: on `nil(x = 1)` the evaluator errors with "Can only call
functions and classes" from the post-argument state, in which the global
`x` has already been re-bound to the freshly written cell holding 1 —
the argument's side effect happened and is kept. -/
theorem c10_args_before_checks_witness :
    evalExpr 10 c10Locals c10Interp (.call c10Callee c10Paren c10Args) =
      ((evalArgs 9 c10Locals (evalExpr 9 c10Locals c10Interp c10Callee).1 c10Args).1,
        .err ⟨c10Paren, "Can only call functions and classes", none⟩) ∧
    ((evalArgs 9 c10Locals (evalExpr 9 c10Locals c10Interp c10Callee).1
        c10Args).1.store.readFrame 0).map Frame.values = some [("x", 2)] ∧
    (evalArgs 9 c10Locals (evalExpr 9 c10Locals c10Interp c10Callee).1
        c10Args).1.store.readCell 2 = some (.num 1) :=
  ⟨c10_args_before_checks.1 9 c10Locals c10Interp _ _ c10Callee c10Paren c10Args
      1 [2] .nil rfl rfl rfl rfl,
   rfl, rfl⟩

/-! ## The resolver (`resolver.rs`)

The Rust scope stack is a `Vec` pushed/popped at the end and searched
from the top; we model it with the list **head as the top of the stack**,
so `resolve_local`'s depth `scopes.len() - 1 - i` (distance of the first
hit from the top) becomes the position of the first hit walking from the
head. -/

/-- `FunctionType` (`resolver.rs` lines 312-318). -/
inductive FunctionType where
  | none | function | initializer | method
  deriving DecidableEq

/-- `ClassType` (`resolver.rs` lines 320-324). -/
inductive ClassType where
  | none | classType
  deriving DecidableEq

def scopeGet (sc : List (String × Bool)) (k : String) : Option Bool :=
  match sc with
  | [] => none
  | (k0, b) :: rest => if k0 = k then some b else scopeGet rest k

def scopeInsert (sc : List (String × Bool)) (k : String) (b : Bool) :
    List (String × Bool) :=
  match sc with
  | [] => [(k, b)]
  | (k0, b0) :: rest =>
    if k0 = k then (k, b) :: rest else (k0, b0) :: scopeInsert rest k b

/-- `Resolver` (`resolver.rs` lines 11-16); `interpLocals` records the
`interpreter.resolve(expr, depth)` calls. -/
structure Resolver where
  scopes : List (List (String × Bool))
  currentFunction : FunctionType
  currentClass : ClassType
  interpLocals : List (Expr × Nat)

/-- `Resolver::begin_scope`. -/
def Resolver.beginScope (R : Resolver) : Resolver :=
  { R with scopes := [] :: R.scopes }

/-- `Resolver::end_scope` (`Vec::pop`; popping an empty stack is a
no-op). -/
def Resolver.endScope (R : Resolver) : Resolver :=
  { R with scopes := R.scopes.tail }

/-- `Resolver::declare` (`resolver.rs` lines 45-59): nothing at global
scope; re-declaring in the same local scope is a static error; otherwise
mark the name not-yet-initialized in the top scope. -/
def Resolver.declare (R : Resolver) (name : Token) : Resolver × PRes Unit :=
  match R.scopes with
  | [] => (R, .ok ())
  | top :: rest =>
    if (scopeGet top name.lexeme).isSome then
      (R, .err ⟨name, "Already a variable with this name in this scope.", none⟩)
    else
      ({ R with scopes := scopeInsert top name.lexeme false :: rest }, .ok ())

/-- `Resolver::define` (`resolver.rs` lines 61-67). -/
def Resolver.define (R : Resolver) (name : Token) : Resolver :=
  match R.scopes with
  | [] => R
  | top :: rest => { R with scopes := scopeInsert top name.lexeme true :: rest }

/-- The depth computed by `Resolver::resolve_local` (`resolver.rs` lines
69-76): distance from the top of the stack to the first scope containing
the name; unresolved when no scope does. -/
def resolveLocalDepth (scopes : List (List (String × Bool))) (name : String) :
    Option Nat :=
  match scopes with
  | [] => none
  | top :: rest =>
    if (scopeGet top name).isSome then some 0
    else (resolveLocalDepth rest name).map (· + 1)

/-- `Resolver::resolve_local`: record the depth with the interpreter when
found, else leave the expression unresolved. -/
def Resolver.resolveLocal (R : Resolver) (e : Expr) (name : Token) : Resolver :=
  match resolveLocalDepth R.scopes name.lexeme with
  | some d => { R with interpLocals := R.interpLocals ++ [(e, d)] }
  | none => R

mutual

/-- `Resolver::visit_expr` (`resolver.rs` lines 104-187). -/
def rVisitExpr (fuel : Nat) (R : Resolver) (e : Expr) : Resolver × PRes Unit :=
  match fuel with
  | 0 => (R, .panic)
  | f + 1 =>
    match e with
    | .assign name value =>
      match rVisitExpr f R value with
      | (R1, .ok _) => (R1.resolveLocal (.assign name value) name, .ok ())
      | (R1, .err er) => (R1, .err er)
      | (R1, .panic) => (R1, .panic)
    | .binary left _ right =>
      match rVisitExpr f R left with
      | (R1, .ok _) => rVisitExpr f R1 right
      | (R1, .err er) => (R1, .err er)
      | (R1, .panic) => (R1, .panic)
    | .call callee _ arguments =>
      match rVisitExpr f R callee with
      | (R1, .ok _) => rVisitExprs f R1 arguments
      | (R1, .err er) => (R1, .err er)
      | (R1, .panic) => (R1, .panic)
    | .get object _ => rVisitExpr f R object
    | .grouping expression => rVisitExpr f R expression
    | .literal _ => (R, .ok ())
    | .logical left _ right =>
      match rVisitExpr f R left with
      | (R1, .ok _) => rVisitExpr f R1 right
      | (R1, .err er) => (R1, .err er)
      | (R1, .panic) => (R1, .panic)
    | .set object _name value =>
      -- the source resolves the value before the object (lines 147-155)
      match rVisitExpr f R value with
      | (R1, .ok _) =>
        match rVisitExpr f R1 object with
        | (R2, .ok _) => (R2, .ok ())
        | (R2, .err er) => (R2, .err er)
        | (R2, .panic) => (R2, .panic)
      | (R1, .err er) => (R1, .err er)
      | (R1, .panic) => (R1, .panic)
    | .this keyword =>
      if R.currentClass = .none then
        (R, .err ⟨keyword, "Can\x27t use \x27this\x27 keyword outside of a class.", none⟩)
      else (R.resolveLocal (.this keyword) keyword, .ok ())
    | .unary _ right => rVisitExpr f R right
    | .var name =>
      match R.scopes with
      | top :: _ =>
        if scopeGet top name.lexeme = some false then
          (R, .err ⟨name, "Can\x27t read local variable in its own initializer.", none⟩)
        else (R.resolveLocal (.var name) name, .ok ())
      | [] => (R.resolveLocal (.var name) name, .ok ())

/-- The argument loop of `visit_expr` for `Expr::Call`. -/
def rVisitExprs (fuel : Nat) (R : Resolver) (es : List Expr) : Resolver × PRes Unit :=
  match fuel with
  | 0 => (R, .panic)
  | f + 1 =>
    match es with
    | [] => (R, .ok ())
    | e :: rest =>
      match rVisitExpr f R e with
      | (R1, .ok _) => rVisitExprs f R1 rest
      | (R1, .err er) => (R1, .err er)
      | (R1, .panic) => (R1, .panic)

/-- `Resolver::visit_stmt` (`resolver.rs` lines 189-309). -/
def rVisitStmt (fuel : Nat) (R : Resolver) (s : Stmt) : Resolver × PRes Unit :=
  match fuel with
  | 0 => (R, .panic)
  | f + 1 =>
    match s with
    | .block statements =>
      match rResolveStmts f (R.beginScope) statements with
      | (R1, .ok _) => (R1.endScope, .ok ())
      | (R1, .err er) => (R1, .err er)
      | (R1, .panic) => (R1, .panic)
    | .classDecl name superclass methods =>
      let enclosingClass := R.currentClass
      let R0 := { R with currentClass := .classType }
      match R0.declare name with
      | (R1, .ok _) =>
        let R2 := R1.define name
        -- static self-inheritance check (lines 207-220)
        match
          (match superclass with
           | some (.var variableName) =>
             if name.lexeme = variableName.lexeme then
               some (RErr.mk variableName "A class can\x27t inherit from itself" none)
             else none
           | _ => none) with
        | some er => (R2, .err er)
        | none =>
          match
            (match superclass with
             | some sc => rVisitExpr f R2 sc
             | none => (R2, .ok ())) with
          | (R3, .ok _) =>
            let R4 := R3.beginScope
            let R5 :=
              match R4.scopes with
              | top :: rest => { R4 with scopes := scopeInsert top "this" true :: rest }
              | [] => R4
            match rResolveMethods f R5 methods with
            | (R6, .ok _) =>
              ({ R6.endScope with currentClass := enclosingClass }, .ok ())
            | (R6, .err er) => (R6, .err er)
            | (R6, .panic) => (R6, .panic)
          | (R3, .err er) => (R3, .err er)
          | (R3, .panic) => (R3, .panic)
      | (R1, .err er) => (R1, .err er)
      | (R1, .panic) => (R1, .panic)
    | .expr e => rVisitExpr f R e
    | .function name _ _ =>
      match R.declare name with
      | (R1, .ok _) => rResolveFunction f (R1.define name) s .function
      | (R1, .err er) => (R1, .err er)
      | (R1, .panic) => (R1, .panic)
    | .ifStmt condition thenBranch elseBranch =>
      match rVisitExpr f R condition with
      | (R1, .ok _) =>
        match rVisitStmt f R1 thenBranch with
        | (R2, .ok _) =>
          match elseBranch with
          | some sb => rVisitStmt f R2 sb
          | none => (R2, .ok ())
        | (R2, .err er) => (R2, .err er)
        | (R2, .panic) => (R2, .panic)
      | (R1, .err er) => (R1, .err er)
      | (R1, .panic) => (R1, .panic)
    | .print e => rVisitExpr f R e
    | .ret keyword value =>
      if R.currentFunction = .none then
        (R, .err ⟨keyword, "Can\x27t return from top-level code.", none⟩)
      else
        match value with
        | .literal literalValue =>
          if objectEq literalValue .nil = false then
            if R.currentFunction = .initializer then
              (R, .err ⟨keyword, "Can\x27t return a value from an initializer.", none⟩)
            else rVisitExpr f R value
          else (R, .ok ())
        | _ => rVisitExpr f R value
    | .var name initializer =>
      match R.declare name with
      | (R1, .ok _) =>
        match
          (match initializer with
           | some i => rVisitExpr f R1 i
           | none => (R1, .ok ())) with
        | (R2, .ok _) => (R2.define name, .ok ())
        | (R2, .err er) => (R2, .err er)
        | (R2, .panic) => (R2, .panic)
      | (R1, .err er) => (R1, .err er)
      | (R1, .panic) => (R1, .panic)
    | .whileStmt condition body =>
      match rVisitExpr f R condition with
      | (R1, .ok _) => rVisitStmt f R1 body
      | (R1, .err er) => (R1, .err er)
      | (R1, .panic) => (R1, .panic)

/-- The method loop of `visit_stmt` for `Stmt::Class` (`resolver.rs`
lines 230-238): `init` resolves as `Initializer`, anything else as
`Method`. -/
def rResolveMethods (fuel : Nat) (R : Resolver) (methods : List Stmt) :
    Resolver × PRes Unit :=
  match fuel with
  | 0 => (R, .panic)
  | f + 1 =>
    match methods with
    | [] => (R, .ok ())
    | m :: rest =>
      let declaration :=
        match m with
        | .function mname _ _ =>
          if mname.lexeme = "init" then FunctionType.initializer else FunctionType.method
        | _ => FunctionType.method
      match rResolveFunction f R m declaration with
      | (R1, .ok _) => rResolveMethods f R1 rest
      | (R1, .err er) => (R1, .err er)
      | (R1, .panic) => (R1, .panic)

/-- `Resolver::resolve_stmts` (`resolver.rs` lines 30-35). -/
def rResolveStmts (fuel : Nat) (R : Resolver) (stmts : List Stmt) :
    Resolver × PRes Unit :=
  match fuel with
  | 0 => (R, .panic)
  | f + 1 =>
    match stmts with
    | [] => (R, .ok ())
    | s :: rest =>
      match rVisitStmt f R s with
      | (R1, .ok _) => rResolveStmts f R1 rest
      | (R1, .err er) => (R1, .err er)
      | (R1, .panic) => (R1, .panic)

/-- `Resolver::resolve_function` (`resolver.rs` lines 77-100). -/
def rResolveFunction (fuel : Nat) (R : Resolver) (stmt : Stmt)
    (functionType : FunctionType) : Resolver × PRes Unit :=
  match fuel with
  | 0 => (R, .panic)
  | f + 1 =>
    match stmt with
    | .function _ params body =>
      let enclosingFunction := R.currentFunction
      match rDeclareParams f ({ R with currentFunction := functionType }.beginScope) params with
      | (R1, .ok _) =>
        match rResolveStmts f R1 body with
        | (R2, .ok _) =>
          ({ R2.endScope with currentFunction := enclosingFunction }, .ok ())
        | (R2, .err er) => (R2, .err er)
        | (R2, .panic) => (R2, .panic)
      | (R1, .err er) => (R1, .err er)
      | (R1, .panic) => (R1, .panic)
    | _ => (R, .ok ())

/-- The parameter loop of `resolve_function` (`resolver.rs` lines
91-94). -/
def rDeclareParams (fuel : Nat) (R : Resolver) (params : List Token) :
    Resolver × PRes Unit :=
  match fuel with
  | 0 => (R, .panic)
  | f + 1 =>
    match params with
    | [] => (R, .ok ())
    | p :: rest =>
      match R.declare p with
      | (R1, .ok _) => rDeclareParams f (R1.define p) rest
      | (R1, .err er) => (R1, .err er)
      | (R1, .panic) => (R1, .panic)

end

/-- Resolving a whole program from the initial resolver state
(`Resolver::new`). -/
def resolveProgram (stmts : List Stmt) : PRes Unit :=
  (rResolveStmts 30
    { scopes := [], currentFunction := .none, currentClass := .none, interpLocals := [] }
    stmts).2

/-! ## Concrete data for claim C6 -/

def c6InitTok : Token := tokIdent "init" 80

def c6XParam : Token := tokIdent "x" 81

def c6RetTok : Token := .mk .returnKw "return" none 1 82

def c6CTok : Token := tokIdent "C" 83

def c6XUse : Token := tokIdent "x" 84

/-- `class C { init(x) { return <literal v>; } }`. -/
def c6Prog (v : Object) : List Stmt :=
  [.classDecl c6CTok none [.function c6InitTok [c6XParam] [.ret c6RetTok (.literal v)]]]

/-- `class C { init(x) { return x; } }` — the returned value is a
variable, not a literal. -/
def c6ProgVar : List Stmt :=
  [.classDecl c6CTok none [.function c6InitTok [c6XParam] [.ret c6RetTok (.var c6XUse)]]]

/-- C6 counterexample: `return x;` inside `init` returns a value that is
not the implicit nil, yet the resolver accepts the program without any
error — the "Can't return a value from an initializer." check fires only
on literal return values. -/
theorem c6_counterexample : resolveProgram c6ProgVar = .ok () := rfl

/-- C6 amended: inside `init` the resolver reports "Can't return a value
from an initializer." exactly for `return` of a *literal* other than nil;
a non-literal returned expression (variable, call, ...) is not flagged. -/
theorem c6_initializer_literal_only :
    (∀ v : Object, v ≠ .nil →
      resolveProgram (c6Prog v) =
        .err ⟨c6RetTok, "Can\x27t return a value from an initializer.", none⟩) ∧
    resolveProgram c6ProgVar = .ok () := by
  refine ⟨?_, rfl⟩
  intro v h
  cases v <;> first | exact absurd rfl h | rfl

/-- C6 witness: the amended theorem at the literal `5` (and the
variable-returning program). -/
theorem c6_initializer_literal_only_witness :
    resolveProgram (c6Prog (.num 5)) =
      .err ⟨c6RetTok, "Can\x27t return a value from an initializer.", none⟩ ∧
    resolveProgram c6ProgVar = .ok () :=
  ⟨c6_initializer_literal_only.1 (.num 5) (fun h => nomatch h),
   c6_initializer_literal_only.2⟩

/-! ## The scanner (`scanner.rs`)

The source string is a list of characters.  The crucial detail kept from
the Rust code: `is_at_end` compares the cursor against `source.len()` —
the **byte** length (`byteLen`, summing each character's UTF-8 size) —
while `advance`/`peek`/`matches` index by **code point**
(`chars().nth(current).unwrap()`, whose `unwrap` panic is the `none`
outcome).  Lexeme slicing `&source[start..current]` is modelled
positionally on characters, which coincides with the Rust byte slicing
for ASCII lexemes (the only ones produced in the runs below). -/

def byteLen (s : List Char) : Nat := (s.map Char.utf8Size).sum

/-- `Scanner` (`scanner.rs` lines 5-12) plus the diagnostic sink
(`error(line, msg)` appends to `errors`). -/
structure Scanner where
  source : List Char
  tokens : List Token
  start : Nat
  current : Nat
  line : Nat
  offset : Nat
  errors : List (Nat × String)

def lbraceChar : Char := Char.ofNat 123

def rbraceChar : Char := Char.ofNat 125

/-- `Scanner::is_at_end` (`scanner.rs` lines 39-41): `current >=
source.len()` — the byte length. -/
def Scanner.isAtEnd (sc : Scanner) : Bool := byteLen sc.source ≤ sc.current

/-- `Scanner::advance` (`scanner.rs` lines 120-125):
`chars().nth(current).unwrap()` — `none` is the panic. -/
def Scanner.advance (sc : Scanner) : Option (Char × Scanner) :=
  match sc.source.get? sc.current with
  | some c => some (c, { sc with current := sc.current + 1, offset := sc.offset + 1 })
  | none => none

/-- `Scanner::peek` (`scanner.rs` lines 157-162): the NUL character at
end of input, else `chars().nth(current).unwrap()`. -/
def Scanner.peek (sc : Scanner) : Option Char :=
  if sc.isAtEnd then some (Char.ofNat 0) else sc.source.get? sc.current

/-- `Scanner::peek_next` (`scanner.rs` lines 163-168). -/
def Scanner.peekNext (sc : Scanner) : Option Char :=
  if byteLen sc.source ≤ sc.current + 1 then some (Char.ofNat 0)
  else sc.source.get? (sc.current + 1)

/-- `Scanner::matches` (`scanner.rs` lines 147-156); note it advances
`current` without touching `offset`. -/
def Scanner.matchesChar (sc : Scanner) (expected : Char) : Option (Bool × Scanner) :=
  if sc.isAtEnd then some (false, sc)
  else
    match sc.source.get? sc.current with
    | none => none
    | some c =>
      if c = expected then some (true, { sc with current := sc.current + 1 })
      else some (false, sc)

/-- The slice `&source[a..b]` on character positions. -/
def sliceText (s : List Char) (a b : Nat) : String :=
  String.mk ((s.drop a).take (b - a))

/-- `Scanner::add_token` (`scanner.rs` lines 126-135). -/
def Scanner.addToken (sc : Scanner) (tt : TokenType) : Scanner :=
  { sc with tokens := sc.tokens ++
      [Token.mk tt (sliceText sc.source sc.start sc.current) none sc.line sc.offset] }

/-- `Scanner::add_token_with_literal` (`scanner.rs` lines 137-146). -/
def Scanner.addTokenLit (sc : Scanner) (tt : TokenType) (lit : Option Object) : Scanner :=
  { sc with tokens := sc.tokens ++
      [Token.mk tt (sliceText sc.source sc.start sc.current) lit sc.line sc.offset] }

/-- `error(line, message)` from `error.rs` as seen by the scanner: record
the diagnostic and continue. -/
def Scanner.addError (sc : Scanner) (msg : String) : Scanner :=
  { sc with errors := sc.errors ++ [(sc.line, msg)] }

/-- The numeric value of a scanned lexeme: the `f32` parse modelled on
the integer part (every numeric literal exercised here is integral). -/
def parseNumLexeme (s : String) : Int :=
  Int.ofNat ((s.toList.takeWhile Char.isDigit).foldl
    (fun acc c => acc * 10 + (c.toNat - 48)) 0)

/-- `Scanner::string` (`scanner.rs` lines 169-192). -/
def scanString (fuel : Nat) (sc : Scanner) : Option Scanner :=
  match fuel with
  | 0 => none
  | f + 1 =>
    match sc.peek with
    | none => none
    | some pc =>
      if pc ≠ '"' ∧ ¬sc.isAtEnd then
        let sc1 := if pc = '\n' then { sc with line := sc.line + 1 } else sc
        match sc1.advance with
        | none => none
        | some (_, sc2) => scanString f sc2
      else
        if sc.isAtEnd then some (sc.addError "Unterminated string.")
        else
          match sc.advance with
          | none => none
          | some (_, sc2) =>
            some (sc2.addTokenLit .string
              (some (.str (sliceText sc2.source (sc2.start + 1) (sc2.current - 1)))))

/-- The digit loops of `Scanner::number` (`scanner.rs` lines 194-213). -/
def scanDigits (fuel : Nat) (sc : Scanner) : Option Scanner :=
  match fuel with
  | 0 => none
  | f + 1 =>
    match sc.peek with
    | none => none
    | some pc =>
      if pc.isDigit then
        match sc.advance with
        | none => none
        | some (_, sc2) => scanDigits f sc2
      else some sc

/-- `Scanner::number` (`scanner.rs` lines 194-213). -/
def scanNumber (fuel : Nat) (sc : Scanner) : Option Scanner :=
  match scanDigits fuel sc with
  | none => none
  | some sc1 =>
    match sc1.peek with
    | none => none
    | some pc =>
      if pc = '.' then
        match sc1.peekNext with
        | none => none
        | some pn =>
          if pn.isDigit then
            match sc1.advance with
            | none => none
            | some (_, sc2) =>
              match scanDigits fuel sc2 with
              | none => none
              | some sc3 =>
                some (sc3.addTokenLit .number
                  (some (.num (parseNumLexeme (sliceText sc3.source sc3.start sc3.current)))))
          else
            some (sc1.addTokenLit .number
              (some (.num (parseNumLexeme (sliceText sc1.source sc1.start sc1.current)))))
      else
        some (sc1.addTokenLit .number
          (some (.num (parseNumLexeme (sliceText sc1.source sc1.start sc1.current)))))

/-- The keyword table of `Scanner::identifier` (`scanner.rs` lines
220-238). -/
def keywordType (text : String) : TokenType :=
  if text = "and" then .andKw
  else if text = "class" then .classKw
  else if text = "else" then .elseKw
  else if text = "false" then .falseKw
  else if text = "for" then .forKw
  else if text = "fun" then .funKw
  else if text = "if" then .ifKw
  else if text = "nil" then .nilKw
  else if text = "or" then .orKw
  else if text = "print" then .printKw
  else if text = "return" then .returnKw
  else if text = "super" then .superKw
  else if text = "this" then .thisKw
  else if text = "true" then .trueKw
  else if text = "var" then .varKw
  else if text = "while" then .whileKw
  else .identifier

/-- `Scanner::identifier` (`scanner.rs` lines 215-240). -/
def scanIdentifier (fuel : Nat) (sc : Scanner) : Option Scanner :=
  match fuel with
  | 0 => none
  | f + 1 =>
    match sc.peek with
    | none => none
    | some pc =>
      if pc.isAlphanum ∨ pc = '_' then
        match sc.advance with
        | none => none
        | some (_, sc2) => scanIdentifier f sc2
      else
        some (sc.addToken (keywordType (sliceText sc.source sc.start sc.current)))

/-- The `//` comment loop of `scan_single_token` (`scanner.rs` lines
88-96). -/
def scanComment (fuel : Nat) (sc : Scanner) : Option Scanner :=
  match fuel with
  | 0 => none
  | f + 1 =>
    match sc.peek with
    | none => none
    | some pc =>
      if pc ≠ '\n' ∧ ¬sc.isAtEnd then
        match sc.advance with
        | none => none
        | some (_, sc2) => scanComment f sc2
      else some sc

/-- `Scanner::scan_single_token` (`scanner.rs` lines 42-119). -/
def scanSingleToken (fuel : Nat) (sc0 : Scanner) : Option Scanner :=
  match sc0.advance with
  | none => none
  | some (c, sc) =>
    if c = '(' then some (sc.addToken .leftParen)
    else if c = ')' then some (sc.addToken .rightParen)
    else if c = lbraceChar then some (sc.addToken .leftBrace)
    else if c = rbraceChar then some (sc.addToken .rightBrace)
    else if c = ',' then some (sc.addToken .comma)
    else if c = '.' then some (sc.addToken .dot)
    else if c = '-' then some (sc.addToken .minus)
    else if c = '+' then some (sc.addToken .plus)
    else if c = ';' then some (sc.addToken .semicolon)
    else if c = '*' then some (sc.addToken .star)
    else if c = '!' then
      match sc.matchesChar '=' with
      | none => none
      | some (true, sc2) => some (sc2.addToken .bangEqual)
      | some (false, sc2) => some (sc2.addToken .bang)
    else if c = '=' then
      match sc.matchesChar '=' with
      | none => none
      | some (true, sc2) => some (sc2.addToken .equalEqual)
      | some (false, sc2) => some (sc2.addToken .equal)
    else if c = '<' then
      match sc.matchesChar '=' with
      | none => none
      | some (true, sc2) => some (sc2.addToken .lessEqual)
      | some (false, sc2) => some (sc2.addToken .less)
    else if c = '>' then
      match sc.matchesChar '=' with
      | none => none
      | some (true, sc2) => some (sc2.addToken .greaterEqual)
      | some (false, sc2) => some (sc2.addToken .greater)
    else if c = '/' then
      match sc.matchesChar '/' with
      | none => none
      | some (true, sc2) => scanComment fuel sc2
      | some (false, sc2) => some (sc2.addToken .slash)
    else if c = ' ' ∨ c = '\r' ∨ c = '\t' then some sc
    else if c = '\n' then some { sc with line := sc.line + 1, offset := 0 }
    else if c = '"' then scanString fuel sc
    else if c.isDigit then scanNumber fuel sc
    else if c.isAlpha ∨ c = '_' then scanIdentifier fuel sc
    else some (sc.addError "Unexpected character.")

/-- The main loop of `Scanner::scan_tokens` (`scanner.rs` lines 25-29). -/
def scanLoop (fuel : Nat) (sc : Scanner) : Option Scanner :=
  match fuel with
  | 0 => none
  | f + 1 =>
    if sc.isAtEnd then some sc
    else
      match scanSingleToken f { sc with start := sc.current } with
      | none => none
      | some sc1 => scanLoop f sc1

/-- `Scanner::scan_tokens` (`scanner.rs` lines 25-38): scan until
`is_at_end`, then push the `Eof` token.  `none` is a panic. -/
def scanTokens (source : List Char) : Option Scanner :=
  match scanLoop (byteLen source + 2)
      { source := source, tokens := [], start := 0, current := 0, line := 1,
        offset := 0, errors := [] } with
  | none => none
  | some sc =>
    some { sc with tokens := sc.tokens ++
      [Token.mk .eof "" none sc.line sc.offset] }

/-- C7: refuted on the code.  On the one-character source `"é"` (U+00E9,
two UTF-8 bytes, one code point) the scanner reports the expected
"Unexpected character." but then, since the code-point cursor `1` is
still below the byte length `2`, `is_at_end` is false and the next
`advance` calls `chars().nth(1).unwrap()` on an exhausted iterator —
`scan_tokens` panics and never produces the `Eof`-terminated token
sequence.  On ASCII input (second conjunct) the byte and code-point
counts agree and scanning terminates normally with `Eof`. -/
theorem c7_scanner_panics_on_non_ascii :
    scanTokens [Char.ofNat 233] = none ∧
    (scanTokens ['a']).map Scanner.tokens =
      some [Token.mk .identifier "a" none 1 1, Token.mk .eof "" none 1 1] ∧
    (scanTokens ['a']).map Scanner.errors = some [] :=
  ⟨rfl, rfl, rfl⟩

/-! ## The parser (`parser.rs`)

Parsing is modelled in a small state monad over the token cursor, with
three outcomes: success, `SyntaxError`, or panic (out-of-bounds token
indexing, or fuel exhaustion of the explicit recursion bound).
`SyntaxError::new` also prints a diagnostic; only the error value matters
here.  The over-255 parameter/argument diagnostics (`lox_error`) go to
stdout without affecting the result and are not recorded. -/

structure PState where
  tokens : List Token
  current : Nat

/-- `SyntaxError` from `error.rs`. -/
structure SynErr where
  token : Token
  message : String

inductive POut (α : Type) where
  | ok (a : α)
  | error (e : SynErr)
  | panic

def PM (α : Type) := PState → PState × POut α

instance : Monad PM where
  pure a := fun s => (s, .ok a)
  bind x g := fun s =>
    match x s with
    | (s1, .ok a) => g a s1
    | (s1, .error e) => (s1, .error e)
    | (s1, .panic) => (s1, .panic)

def pmPanic {α : Type} : PM α := fun s => (s, .panic)

def throwSyn {α : Type} (e : SynErr) : PM α := fun s => (s, .error e)

def getSt : PM PState := fun s => (s, .ok s)

def setSt (s1 : PState) : PM Unit := fun _ => (s1, .ok ())

/-- `self.tokens[self.current]` (panics out of bounds). -/
def tokenAt : PM Token := fun s =>
  match s.tokens.get? s.current with
  | some t => (s, .ok t)
  | none => (s, .panic)

/-- `Parser::peek` (`parser.rs` lines 382-384). -/
def peekP : PM Token := tokenAt

/-- `Parser::previous` (`parser.rs` lines 386-388); only ever called
after an `advance`, so `current - 1` never underflows in the runs
below. -/
def previousP : PM Token := fun s =>
  match s.tokens.get? (s.current - 1) with
  | some t => (s, .ok t)
  | none => (s, .panic)

/-- `Parser::is_at_end` (`parser.rs` lines 378-380). -/
def isAtEndP : PM Bool := do
  pure ((← peekP).tokenType == .eof)

/-- `Parser::advance` (`parser.rs` lines 371-376). -/
def advanceP : PM Token := do
  if !(← isAtEndP) then do
    let s ← getSt
    setSt { s with current := s.current + 1 }
  previousP

/-- `Parser::check` (`parser.rs` lines 364-369). -/
def checkP (tt : TokenType) : PM Bool := do
  if (← isAtEndP) then pure false
  else pure ((← peekP).tokenType == tt)

/-- `Parser::matches` (`parser.rs` lines 354-362). -/
def matchesP (tts : List TokenType) : PM Bool :=
  match tts with
  | [] => pure false
  | tt :: rest => do
    if (← checkP tt) then do
      let _ ← advanceP
      pure true
    else matchesP rest

/-- `Parser::consume` (`parser.rs` lines 555-561). -/
def consumeP (tt : TokenType) (msg : String) : PM Token := do
  if (← checkP tt) then advanceP
  else do
    let t ← tokenAt
    throwSyn ⟨t, msg⟩

/-- The loop inside `Parser::synchronize` (`parser.rs` lines 393-409). -/
def syncLoop (fuel : Nat) : PM Unit :=
  match fuel with
  | 0 => pmPanic
  | f + 1 => do
    if (← isAtEndP) then pure ()
    else do
      let prev ← previousP
      if prev.tokenType == .semicolon then pure ()
      else do
        let pk ← peekP
        match pk.tokenType with
        | .classKw | .funKw | .varKw | .forKw
        | .ifKw | .whileKw | .printKw | .returnKw => pure ()
        | _ => do
          let _ ← advanceP
          syncLoop f

/-- `Parser::synchronize` (`parser.rs` lines 390-410). -/
def synchronizeP (fuel : Nat) : PM Unit := do
  let _ ← advanceP
  syncLoop fuel

/-- The error recovery of `Parser::declaration` (`parser.rs` lines
97-136): a failed declaration is reported, the parser synchronizes, and
`None` is produced. -/
def recoverP (fuel : Nat) (x : PM Stmt) : PM (Option Stmt) := fun s =>
  match x s with
  | (s1, .ok st) => (s1, .ok (some st))
  | (s1, .error _) =>
    (match synchronizeP fuel s1 with
     | (s2, .ok _) => (s2, .ok none)
     | (s2, .error e) => (s2, .error e)
     | (s2, .panic) => (s2, .panic))
  | (s1, .panic) => (s1, .panic)

/-- The combination step at the end of `Parser::for_statement`
(`parser.rs` lines 200-227): wrap the body with the increment, default
the condition to `true`, build the `While`, and prepend the
initializer. -/
def forCombine (initializer : Option Stmt) (condition : Option Expr)
    (increment : Option Expr) (body0 : Stmt) : Stmt :=
  let body1 :=
    match increment with
    | some i => Stmt.block [body0, Stmt.expr i]
    | none => body0
  let cond :=
    match condition with
    | some c => c
    | none => Expr.literal (.bool true)
  let body2 := Stmt.whileStmt cond body1
  match initializer with
  | some i => Stmt.block [i, body2]
  | none => body2

mutual

/-- `Parser::expression` (`parser.rs` lines 31-33). -/
def expressionP (fuel : Nat) : PM Expr :=
  match fuel with
  | 0 => pmPanic
  | f + 1 => assignmentP f

/-- `Parser::assignment` (`parser.rs` lines 35-65). -/
def assignmentP (fuel : Nat) : PM Expr :=
  match fuel with
  | 0 => pmPanic
  | f + 1 => do
    let expr ← orP f
    if (← matchesP [.equal]) then do
      let equals ← previousP
      let value ← assignmentP f
      match expr with
      | .var name => pure (.assign name value)
      | .get object name => pure (.set object name value)
      | _ => throwSyn ⟨equals, "Invalid assignment target."⟩
    else pure expr

/-- `Parser::or` (`parser.rs` lines 67-80). -/
def orP (fuel : Nat) : PM Expr :=
  match fuel with
  | 0 => pmPanic
  | f + 1 => do
    let e ← andP f
    orLoopP f e

def orLoopP (fuel : Nat) (e : Expr) : PM Expr :=
  match fuel with
  | 0 => pmPanic
  | f + 1 => do
    if (← matchesP [.orKw]) then do
      let operator ← previousP
      let right ← andP f
      orLoopP f (.logical e operator right)
    else pure e

/-- `Parser::and` (`parser.rs` lines 82-95). -/
def andP (fuel : Nat) : PM Expr :=
  match fuel with
  | 0 => pmPanic
  | f + 1 => do
    let e ← equalityP f
    andLoopP f e

def andLoopP (fuel : Nat) (e : Expr) : PM Expr :=
  match fuel with
  | 0 => pmPanic
  | f + 1 => do
    if (← matchesP [.andKw]) then do
      let operator ← previousP
      let right ← equalityP f
      andLoopP f (.logical e operator right)
    else pure e

/-- `Parser::equality` (`parser.rs` lines 339-352). -/
def equalityP (fuel : Nat) : PM Expr :=
  match fuel with
  | 0 => pmPanic
  | f + 1 => do
    let e ← comparisonP f
    equalityLoopP f e

def equalityLoopP (fuel : Nat) (e : Expr) : PM Expr :=
  match fuel with
  | 0 => pmPanic
  | f + 1 => do
    if (← matchesP [.bangEqual, .equalEqual]) then do
      let operator ← previousP
      let right ← comparisonP f
      equalityLoopP f (.binary e operator right)
    else pure e

/-- `Parser::comparison` (`parser.rs` lines 412-429). -/
def comparisonP (fuel : Nat) : PM Expr :=
  match fuel with
  | 0 => pmPanic
  | f + 1 => do
    let e ← termP f
    comparisonLoopP f e

def comparisonLoopP (fuel : Nat) (e : Expr) : PM Expr :=
  match fuel with
  | 0 => pmPanic
  | f + 1 => do
    if (← matchesP [.greater, .greaterEqual, .less, .lessEqual]) then do
      let operator ← previousP
      let right ← termP f
      comparisonLoopP f (.binary e operator right)
    else pure e

/-- `Parser::term` (`parser.rs` lines 431-443). -/
def termP (fuel : Nat) : PM Expr :=
  match fuel with
  | 0 => pmPanic
  | f + 1 => do
    let e ← factorP f
    termLoopP f e

def termLoopP (fuel : Nat) (e : Expr) : PM Expr :=
  match fuel with
  | 0 => pmPanic
  | f + 1 => do
    if (← matchesP [.minus, .plus]) then do
      let operator ← previousP
      let right ← factorP f
      termLoopP f (.binary e operator right)
    else pure e

/-- `Parser::factor` (`parser.rs` lines 445-457). -/
def factorP (fuel : Nat) : PM Expr :=
  match fuel with
  | 0 => pmPanic
  | f + 1 => do
    let e ← unaryP f
    factorLoopP f e

def factorLoopP (fuel : Nat) (e : Expr) : PM Expr :=
  match fuel with
  | 0 => pmPanic
  | f + 1 => do
    if (← matchesP [.slash, .star]) then do
      let operator ← previousP
      let right ← unaryP f
      factorLoopP f (.binary e operator right)
    else pure e

/-- `Parser::unary` (`parser.rs` lines 459-469). -/
def unaryP (fuel : Nat) : PM Expr :=
  match fuel with
  | 0 => pmPanic
  | f + 1 => do
    if (← matchesP [.bang, .minus]) then do
      let operator ← previousP
      let right ← unaryP f
      pure (.unary operator right)
    else callP f

/-- `Parser::call` (`parser.rs` lines 493-510). -/
def callP (fuel : Nat) : PM Expr :=
  match fuel with
  | 0 => pmPanic
  | f + 1 => do
    let e ← primaryP f
    callLoopP f e

def callLoopP (fuel : Nat) (e : Expr) : PM Expr :=
  match fuel with
  | 0 => pmPanic
  | f + 1 => do
    if (← matchesP [.leftParen]) then do
      let e1 ← finishCallP f e
      callLoopP f e1
    else if (← matchesP [.dot]) then do
      let name ← consumeP .identifier "Expect propery name after \x27.\x27."
      callLoopP f (.get e name)
    else pure e

/-- `Parser::finish_call` (`parser.rs` lines 471-491). -/
def finishCallP (fuel : Nat) (callee : Expr) : PM Expr :=
  match fuel with
  | 0 => pmPanic
  | f + 1 => do
    let args ←
      (do
        if !(← checkP .rightParen) then do
          let first ← expressionP f
          argsLoopP f [first]
        else pure [])
    let paren ← consumeP .rightParen "Expect \x27)\x27 after arguments."
    pure (.call callee paren args)

def argsLoopP (fuel : Nat) (acc : List Expr) : PM (List Expr) :=
  match fuel with
  | 0 => pmPanic
  | f + 1 => do
    if (← matchesP [.comma]) then do
      let e ← expressionP f
      argsLoopP f (acc ++ [e])
    else pure acc

/-- `Parser::primary` (`parser.rs` lines 512-553): literals, `this`,
identifiers and grouping — there is **no** arm for `super` (or any other
keyword), so a `super` token falls through to "Expected expression.". -/
def primaryP (fuel : Nat) : PM Expr :=
  match fuel with
  | 0 => pmPanic
  | f + 1 => do
    if (← matchesP [.falseKw]) then pure (.literal (.bool false))
    else if (← matchesP [.trueKw]) then pure (.literal (.bool true))
    else if (← matchesP [.nilKw]) then pure (.literal .nil)
    else if (← matchesP [.number, .string]) then do
      let prev ← previousP
      match prev.literal with
      | some v => pure (.literal v)
      | none => pmPanic
    else if (← matchesP [.thisKw]) then do
      let prev ← previousP
      pure (.this prev)
    else if (← matchesP [.identifier]) then do
      let prev ← previousP
      pure (.var prev)
    else if (← matchesP [.leftParen]) then do
      let e ← expressionP f
      let _ ← consumeP .rightParen "Expect \x27)\x27 after expression."
      pure (.grouping e)
    else do
      let t ← tokenAt
      throwSyn ⟨t, "Expected expression."⟩

/-- `Parser::declaration` (`parser.rs` lines 97-136). -/
def declarationP (fuel : Nat) : PM (Option Stmt) :=
  match fuel with
  | 0 => pmPanic
  | f + 1 => do
    if (← matchesP [.classKw]) then recoverP f (classDeclarationP f)
    else if (← matchesP [.funKw]) then recoverP f (functionP f "function")
    else if (← matchesP [.varKw]) then recoverP f (varDeclarationP f)
    else recoverP f (statementP f)

/-- `Parser::class_declaration` (`parser.rs` lines 138-148): class name,
`{`, methods, `}` — there is **no** superclass (`<`) clause. -/
def classDeclarationP (fuel : Nat) : PM Stmt :=
  match fuel with
  | 0 => pmPanic
  | f + 1 => do
    let name ← consumeP .identifier "Expect class name"
    let _ ← consumeP .leftBrace "Expect \x27\x7b\x27 before class body."
    let methods ← classMethodsLoopP f []
    let _ ← consumeP .rightBrace "Expect \x27\x7d\x27 after class body."
    pure (.classDecl name none methods)

def classMethodsLoopP (fuel : Nat) (acc : List Stmt) : PM (List Stmt) :=
  match fuel with
  | 0 => pmPanic
  | f + 1 => do
    let c ← checkP .rightBrace
    let e ← isAtEndP
    if !c && !e then do
      let m ← functionP f "method"
      classMethodsLoopP f (acc ++ [m])
    else pure acc

/-- `Parser::statement` (`parser.rs` lines 150-172). -/
def statementP (fuel : Nat) : PM Stmt :=
  match fuel with
  | 0 => pmPanic
  | f + 1 => do
    if (← matchesP [.ifKw]) then ifStatementP f
    else if (← matchesP [.forKw]) then forStatementP f
    else if (← matchesP [.printKw]) then printStatementP f
    else if (← matchesP [.returnKw]) then returnStatementP f
    else if (← matchesP [.whileKw]) then whileStatementP f
    else if (← matchesP [.leftBrace]) then do
      let stmts ← blockP f
      pure (.block stmts)
    else expressionStatementP f

/-- `Parser::for_statement` (`parser.rs` lines 174-228). -/
def forStatementP (fuel : Nat) : PM Stmt :=
  match fuel with
  | 0 => pmPanic
  | f + 1 => do
    let _ ← consumeP .leftParen "Expect \x27(\x27 after \x27for\x27."
    let initializer ←
      (do
        if (← matchesP [.semicolon]) then pure none
        else if (← matchesP [.varKw]) then do
          let d ← varDeclarationP f
          pure (some d)
        else do
          let d ← expressionStatementP f
          pure (some d))
    let condition ←
      (do
        if !(← checkP .semicolon) then do
          let c ← expressionP f
          pure (some c)
        else pure none)
    let _ ← consumeP .semicolon "Expect \x27;\x27 after loop condition."
    let increment ←
      (do
        if !(← checkP .rightParen) then do
          let i ← expressionP f
          pure (some i)
        else pure none)
    let _ ← consumeP .rightParen "Expect \x27)\x27 after for clauses."
    let body ← statementP f
    pure (forCombine initializer condition increment body)

/-- `Parser::if_statement` (`parser.rs` lines 230-246). -/
def ifStatementP (fuel : Nat) : PM Stmt :=
  match fuel with
  | 0 => pmPanic
  | f + 1 => do
    let _ ← consumeP .leftParen "Expect \x27(\x27 after \x27if\x27."
    let condition ← expressionP f
    let _ ← consumeP .rightParen "Expect \x27)\x27 after if condition."
    let thenBranch ← statementP f
    if (← matchesP [.elseKw]) then do
      let elseBranch ← statementP f
      pure (.ifStmt condition thenBranch (some elseBranch))
    else pure (.ifStmt condition thenBranch none)

/-- `Parser::print_statement` (`parser.rs` lines 248-252). -/
def printStatementP (fuel : Nat) : PM Stmt :=
  match fuel with
  | 0 => pmPanic
  | f + 1 => do
    let value ← expressionP f
    let _ ← consumeP .semicolon "Expect \x27;\x27 after value."
    pure (.print value)

/-- `Parser::return_statement` (`parser.rs` lines 254-262): a missing
value becomes the implicit literal nil. -/
def returnStatementP (fuel : Nat) : PM Stmt :=
  match fuel with
  | 0 => pmPanic
  | f + 1 => do
    let keyword ← previousP
    let value ←
      (do
        if !(← checkP .semicolon) then expressionP f
        else pure (Expr.literal .nil))
    let _ ← consumeP .semicolon "Expect \x27;\x27 after return value."
    pure (.ret keyword value)

/-- `Parser::var_declaration` (`parser.rs` lines 264-275). -/
def varDeclarationP (fuel : Nat) : PM Stmt :=
  match fuel with
  | 0 => pmPanic
  | f + 1 => do
    let name ← consumeP .identifier "Expect variable name."
    let initializer ←
      (do
        if (← matchesP [.equal]) then do
          let e ← expressionP f
          pure (some e)
        else pure none)
    let _ ← consumeP .semicolon "Expect \x27;\x27 after variable declaration"
    pure (.var name initializer)

/-- `Parser::while_statement` (`parser.rs` lines 277-286). -/
def whileStatementP (fuel : Nat) : PM Stmt :=
  match fuel with
  | 0 => pmPanic
  | f + 1 => do
    let _ ← consumeP .leftParen "Expect \x27(\x27 after \x27while\x27."
    let condition ← expressionP f
    let _ ← consumeP .rightParen "Expect \x27)\x27 after condition."
    let body ← statementP f
    pure (.whileStmt condition body)

/-- `Parser::expression_statement` (`parser.rs` lines 288-292). -/
def expressionStatementP (fuel : Nat) : PM Stmt :=
  match fuel with
  | 0 => pmPanic
  | f + 1 => do
    let e ← expressionP f
    let _ ← consumeP .semicolon "Expect \x27;\x27 after expression."
    pure (.expr e)

/-- `Parser::function` (`parser.rs` lines 294-325). -/
def functionP (fuel : Nat) (kind : String) : PM Stmt :=
  match fuel with
  | 0 => pmPanic
  | f + 1 => do
    let name ← consumeP .identifier ("Expect " ++ kind ++ " name.")
    let _ ← consumeP .leftParen ("Expect \x27(\x27 after " ++ kind ++ " name.")
    let params ←
      (do
        if !(← checkP .rightParen) then do
          let p ← consumeP .identifier "Expect parameter name."
          paramsLoopP f [p]
        else pure [])
    let _ ← consumeP .rightParen "Expect \x27)\x27 after parameters."
    let _ ← consumeP .leftBrace ("Expect \x27\x7b\x27 before " ++ kind ++ " body.")
    let body ← blockP f
    pure (.function name params body)

def paramsLoopP (fuel : Nat) (acc : List Token) : PM (List Token) :=
  match fuel with
  | 0 => pmPanic
  | f + 1 => do
    if (← matchesP [.comma]) then do
      let p ← consumeP .identifier "Expect parameter name."
      paramsLoopP f (acc ++ [p])
    else pure acc

/-- `Parser::block` (`parser.rs` lines 327-337). -/
def blockP (fuel : Nat) : PM (List Stmt) :=
  match fuel with
  | 0 => pmPanic
  | f + 1 => do
    let stmts ← blockLoopP f []
    let _ ← consumeP .rightBrace "Expect \x27\x7d\x27 after block."
    pure stmts

def blockLoopP (fuel : Nat) (acc : List Stmt) : PM (List Stmt) :=
  match fuel with
  | 0 => pmPanic
  | f + 1 => do
    let c ← checkP .rightBrace
    let e ← isAtEndP
    if !c && !e then do
      let d ← declarationP f
      blockLoopP f (acc ++ d.toList)
    else pure acc

/-- The loop of `Parser::parse` (`parser.rs` lines 17-29): failed
declarations contribute nothing. -/
def parseLoopP (fuel : Nat) (acc : List Stmt) : PM (List Stmt) :=
  match fuel with
  | 0 => pmPanic
  | f + 1 => do
    if (← isAtEndP) then pure acc
    else do
      let d ← declarationP f
      parseLoopP f (acc ++ d.toList)

end

/-- `Parser::parse` run on a token list from `Parser::new`. -/
def parserParse (fuel : Nat) (tokens : List Token) : PState × POut (List Stmt) :=
  parseLoopP fuel [] { tokens := tokens, current := 0 }

/-! ## Concrete data for claim C3: `class B < A { }` and `super.m` -/

/-- The token stream of `class B < A { }`. -/
def c3Tokens : List Token :=
  [ .mk .classKw "class" none 1 1,
    .mk .identifier "B" none 1 2,
    .mk .less "<" none 1 3,
    .mk .identifier "A" none 1 4,
    .mk .leftBrace "\x7b" none 1 5,
    .mk .rightBrace "\x7d" none 1 6,
    .mk .eof "" none 1 7 ]

/-- The token stream of the expression `super.m`. -/
def c3SuperTokens : List Token :=
  [ .mk .superKw "super" none 1 1,
    .mk .dot "." none 1 2,
    .mk .identifier "m" none 1 3,
    .mk .eof "" none 1 4 ]

/-- C3: refuted on the code.  `class_declaration` consumes the class name
and then demands `{` — there is no `("<" SUPER)` clause, so the `<` of
`class B < A { ...` is the syntax error "Expect '{' before class body.",
after which `declaration` synchronizes and drops the whole class: the
parse of `class B < A { }` yields **no** statements.  Likewise `primary`
has no `super` arm: `super.m` is the syntax error "Expected expression.".
The inheritance program of the claim therefore cannot parse (and so
cannot print `A.m` and `B.m`), contradicting the spec's grammar and the
repository's own inheritance tests. -/
theorem c3_no_superclass_grammar :
    (classDeclarationP 30 { tokens := c3Tokens, current := 1 }).2 =
      .error ⟨Token.mk .less "<" none 1 3, "Expect \x27\x7b\x27 before class body."⟩ ∧
    (parserParse 30 c3Tokens).2 = .ok [] ∧
    (expressionP 30 { tokens := c3SuperTokens, current := 0 }).2 =
      .error ⟨Token.mk .superKw "super" none 1 1, "Expected expression."⟩ :=
  ⟨rfl, rfl, rfl⟩

/-! ## Concrete data for claim C9:
`for (var i = 0; i < 3; i = i + 1) print i;` -/

def c9ATok : Token := .mk .identifier "a" none 1 3

def c9BTok : Token := .mk .identifier "b" none 1 5

def c9CTok : Token := .mk .identifier "c" none 1 7

def c9DTok : Token := .mk .identifier "d" none 1 9

/-- The token stream of `for (a; b; c) d;` — the claim's schematic
instance, with expression statements/expressions for the three clauses
and the body. -/
def c9Tokens : List Token :=
  [ .mk .forKw "for" none 1 1,
    .mk .leftParen "(" none 1 2,
    c9ATok,
    .mk .semicolon ";" none 1 4,
    c9BTok,
    .mk .semicolon ";" none 1 6,
    c9CTok,
    .mk .rightParen ")" none 1 8,
    c9DTok,
    .mk .semicolon ";" none 1 10,
    .mk .eof "" none 1 11 ]

/-- The desugared statement the claim predicts for the C9 token stream:
`{ a; while (b) { d; c; } }`. -/
def c9Expected : Stmt :=
  .block
    [ .expr (.var c9ATok),
      .whileStmt (.var c9BTok)
        (.block [.expr (.var c9DTok), .expr (.var c9CTok)]) ]

/-- Modelled from the spec's words: "`for (init; cond?; inc?) stmt`
desugared into a `Block` containing the initializer followed by a `While`
whose body is the original body followed (in a `Block`) by the increment
expression-statement; an absent condition becomes `true`" — with the
wrapper omitted when the corresponding optional part is absent. -/
def specForDesugar (initializer : Option Stmt) (condition : Option Expr)
    (increment : Option Expr) (body : Stmt) : Stmt :=
  let innerBody :=
    match increment with
    | some i => Stmt.block [body, Stmt.expr i]
    | none => body
  let w := Stmt.whileStmt
    (match condition with
     | some c => c
     | none => Expr.literal (.bool true)) innerBody
  match initializer with
  | some i => Stmt.block [i, w]
  | none => w

set_option maxHeartbeats 1000000 in
/-- C9: confirmed.  The combination step of `for_statement` agrees with
the spec's desugaring for every combination of present/absent condition
and increment; in particular `for (a; b; c) body` becomes
`{ a; while (b) { body; c; } }` (absent condition becoming the literal
`true`), and the whole parser maps the token stream of
`for (a; b; c) d;` to exactly that desugared `Block`/`While`
statement — so the `for` form and its desugaring are the same AST,
hence semantically equivalent. -/
theorem c9_for_desugaring :
    (∀ (initializer : Option Stmt) (condition : Option Expr)
      (increment : Option Expr) (body : Stmt),
      forCombine initializer condition increment body =
        specForDesugar initializer condition increment body) ∧
    (∀ (a : Stmt) (b : Expr) (c : Expr) (body : Stmt),
      forCombine (some a) (some b) (some c) body =
        .block [a, .whileStmt b (.block [body, .expr c])]) ∧
    (∀ (a : Stmt) (c : Expr) (body : Stmt),
      forCombine (some a) none (some c) body =
        .block [a, .whileStmt (.literal (.bool true)) (.block [body, .expr c])]) ∧
    (parserParse 20 c9Tokens).2 = .ok [c9Expected] := by
  refine ⟨?_, fun _ _ _ _ => rfl, fun _ _ _ => rfl, rfl⟩
  intro initializer condition increment body
  cases initializer <;> cases condition <;> cases increment <;> rfl

end RLox
